import Mathlib

/-!
Shallow embedding of the Smart_Inventory core (batch ledger, dispatch
orchestration, receiving reconciliation, resource allocation), translated from
`app/services/inventory_service.py`, `app/services/vehicle_inventory_service.py`
and `app/services/vehicle_service.py`.

Modelling conventions:
* MongoDB collections are lists of documents in natural storage order
  (`insert_one` appends, `find_one` returns the first match, `update_one`
  updates the first match).
* Python floats are modelled as exact rationals (ℚ); quantities are `Int`
  (the code never guards against negative values, see `decBatch`).
* Datetimes are modelled as day counts (`Nat`); fields that can be absent from
  a Mongo document (e.g. `Purchase_Unit_Price` on an upserted batch) are
  `Option`-valued and read back with the same defaults the Python code uses
  (`doc.get(field, 0.0)` becomes `·.getD 0`).
* Generated identifiers (uuid-based batch numbers, transaction ids, dispatch
  ids) and the wall clock are passed in as explicit parameters.
* Write-only audit timestamps (`last_updated`, `updated_at`, `created_at` on
  master records) that no code path ever reads back are omitted.
* Each service function is sequential code between `await` points; it is
  embedded as a state-passing function `DB → DB × result`. Exceptions raised
  before any write leave the returned state equal to the input state, exactly
  as in the source.
-/

namespace SmartInventory

/-- A document of the `InventoryBatches` collection. `oid` models the Mongo
`_id`. `expiry_date`, `purchase_value`, `purchase_unit_price` and `created_at`
are optional because the receive-side upsert creates documents without them. -/
structure Batch where
  oid : Nat
  product_id : String
  hub_id : String
  batch_no : String
  quantity : Int
  expiry_date : Option Nat
  purchase_value : Option ℚ
  purchase_unit_price : Option ℚ
  status : String
  created_at : Option Nat
  deriving Repr, DecidableEq

/-- A document of the append-only `StockTransactions` collection. -/
structure StockTxn where
  txn_id : String
  type : String
  product_id : String
  hub_id : String
  batch_no : String
  quantity : Int
  unit_price : ℚ
  total_value : ℚ
  reference : Option String
  timestamp : Nat
  remarks : String
  deriving Repr, DecidableEq

/-- One entry of a dispatch's `Batch_Consumption` trace. -/
structure ConsumptionEntry where
  batch_no : String
  qty : Int
  unit_cost : ℚ
  deriving Repr, DecidableEq

/-- A document of the `Dispatches` collection. Sentinel value `"In-Progress"`
is stored in `vehicle_assigned` / `driver_assigned` until resources are
assigned. -/
structure DispatchDoc where
  dispatch_id : String
  product_id : String
  from_hub_id : String
  to_hub_id : String
  quantity : Int
  batch_consumption : List ConsumptionEntry
  vehicle_assigned : String
  driver_assigned : String
  status : String
  timestamp : Nat
  arrival_time : Option Nat
  deriving Repr, DecidableEq

/-- A document of the `InventoryProducts` master collection. -/
structure Product where
  product_id : String
  product_name : String
  category : String
  brand : Option String
  selling_price : ℚ
  product_description : Option String
  deriving Repr, DecidableEq

/-- A document of the `drivers` collection (idle flag value: `"active"`). -/
structure Driver where
  driver_id : String
  name : String
  status : String
  deriving Repr, DecidableEq

/-- A document of the `vehicles` collection (idle flag value: `"Available"`). -/
structure Vehicle where
  vehicle_id : String
  status : String
  deriving Repr, DecidableEq

/-- The whole database state; `hubs` holds the hub ids of the master hubs
collection (the only hub attribute the core reads for its checks). -/
structure DB where
  hubs : List String
  products : List Product
  batches : List Batch
  txns : List StockTxn
  dispatches : List DispatchDoc
  drivers : List Driver
  vehicles : List Vehicle
  deriving Repr, DecidableEq

/-- Mongo `update_one`: rewrite the first element matching `p` with `f`. -/
def updateFirst (p : α → Bool) (f : α → α) : List α → List α
  | [] => []
  | x :: xs => if p x then f x :: xs else x :: updateFirst p f xs

/-- `_normalize_id` / pydantic `.strip()`: drop leading and trailing
whitespace (spelled out structurally so that concrete states evaluate). -/
def normalizeId (s : String) : String :=
  String.mk (((s.data.dropWhile Char.isWhitespace).reverse.dropWhile
    Char.isWhitespace).reverse)

/-- The filter used by `_get_total_available` and the FIFO cursor:
`Product_ID`, `Hub_ID` and `status == "active"`. -/
def activeBatchP (pid hub : String) (b : Batch) : Bool :=
  b.product_id == pid && b.hub_id == hub && b.status == "active"

/-- Sum of `Quantity` over the documents matching `p` (a Mongo
`$match`/`$group`-`$sum` aggregation). -/
def qtySum (p : Batch → Bool) (l : List Batch) : Int :=
  ((l.filter p).map (·.quantity)).sum

/-- `_get_total_available(product_id, hub_id)`: total quantity over all
`active` batches of the pair. -/
def totalAvailable (s : DB) (pid hub : String) : Int :=
  qtySum (activeBatchP pid hub) s.batches

/-- System-wide stock of a product: quantity summed over every batch document
of the product, at all hubs and in all statuses. -/
def sysTotal (s : DB) (pid : String) : Int :=
  qtySum (fun b => b.product_id == pid) s.batches

/-- Stock of a product held at one hub (all statuses). -/
def hubTotal (s : DB) (pid hub : String) : Int :=
  qtySum (fun b => b.product_id == pid && b.hub_id == hub) s.batches

/-- A fresh `_id` for an inserted batch document. -/
def freshOid (l : List Batch) : Nat :=
  l.foldr (fun b m => max (b.oid + 1) m) 0

/-- Request schema `RegisterInventory` (pydantic validators enforce
`Quantity > 0`, `Value ≥ 0`, non-empty `Category`). -/
structure RegisterPayload where
  Hub_ID : String
  Product_ID : String
  Product_Name : String
  Quantity : Int
  Value : ℚ
  Selling_Price : ℚ
  Category : String
  Product_Description : Option String
  Expiry_Date : Nat
  Brand : Option String
  Batch_No : Option String
  Purchase_Ref : Option String

inductive RegErr where
  | hubNotFound (hub_id : String)
  deriving Repr, DecidableEq

structure RegOut where
  batch_no : String
  quantity_added : Int
  warning : Bool
  deriving Repr, DecidableEq

/-- Step 2 of `register_inventory`: create the product master if absent,
otherwise update `Selling_Price` and (when truthy) `Product_Description`.
Writing an unchanged value is modelled the same as the code's
only-write-if-changed, which is extensionally identical. -/
def ensureProductMaster (p : RegisterPayload) (s : DB) : DB :=
  let pid := (normalizeId p.Product_ID)
  match s.products.find? (fun m => m.product_id == pid) with
  | none =>
      { s with products := s.products ++
          [{ product_id := pid
           , product_name := (normalizeId p.Product_Name)
           , category := (normalizeId p.Category)
           , brand := (match p.Brand with
               | some b => if b == "" then none else some (normalizeId b)
               | none => none)
           , selling_price := p.Selling_Price
           , product_description := p.Product_Description }] }
  | some _ =>
      let upd : Product → Product := fun m =>
        { m with
          selling_price := p.Selling_Price
        , product_description :=
            (match p.Product_Description with
             | some d => if d == "" then m.product_description else some d
             | none => m.product_description) }
      { s with products := updateFirst (fun m => m.product_id == pid) upd s.products }

/-- Lookup predicate for the merge target of a stock-in: by
`(Product_ID, Hub_ID, Batch_No)` (no status filter!) when a batch number is
supplied, otherwise by `(Product_ID, Hub_ID, Expiry_Date)` restricted to
`status == "active"`. -/
def stockInFindP (product_id hub_id : String) (batch_no : Option String)
    (expiry_dt : Option Nat) : Batch → Bool :=
  match batch_no with
  | some b => fun x => x.product_id == product_id && x.hub_id == hub_id && x.batch_no == b
  | none => fun x => x.product_id == product_id && x.hub_id == hub_id &&
      x.expiry_date == expiry_dt && x.status == "active"

/-- The merge update of `register_inventory`:
`$inc {Quantity, Purchase_Value}` and `$set {Purchase_Unit_Price}` to the
quantity-weighted average of the old and incoming unit costs. -/
def registerMerge (q : Int) (v unit_price : ℚ) (x : Batch) : Batch :=
  let new_qty := x.quantity + q
  let new_unit_price : ℚ :=
    if new_qty > 0 then ((x.purchase_unit_price.getD 0) * x.quantity + unit_price * q) / new_qty
    else unit_price
  { x with quantity := new_qty
         , purchase_value := some ((x.purchase_value.getD 0) + v)
         , purchase_unit_price := some new_unit_price }

/-- A freshly created batch document (`insert_one` branch of stock-in). -/
def mkBatchDoc (product_id hub_id batch_no : String) (q : Int) (expiry : Option Nat)
    (v unit_price : ℚ) (now oid : Nat) : Batch :=
  { oid := oid, product_id := product_id, hub_id := hub_id, batch_no := batch_no,
    quantity := q, expiry_date := expiry, purchase_value := some v,
    purchase_unit_price := some unit_price, status := "active", created_at := some now }

/-- `register_inventory(payload)`. `genBatchNo` stands for the generated
`f"{pid}-{hub}-{timestamp}-{uuid}"` batch number, `txnId` for the generated
transaction id. The `DuplicateKeyError` fallback is unreachable in this
single-request model (an insert is only attempted when no matching document
exists) and therefore has no branch here. -/
def register_inventory (p : RegisterPayload) (now : Nat) (genBatchNo txnId : String)
    (s : DB) : DB × Except RegErr RegOut :=
  let hub_id := (normalizeId p.Hub_ID)
  let product_id := (normalizeId p.Product_ID)
  if s.hubs.contains hub_id then
    let expiry_dt := p.Expiry_Date
    let s := ensureProductMaster p s
    let batch_no : Option String := match p.Batch_No with
      | some b => if (normalizeId b) == "" then none else some (normalizeId b)
      | none => none
    let findP := stockInFindP product_id hub_id batch_no (some expiry_dt)
    let unit_price : ℚ := if p.Quantity > 0 then p.Value / (p.Quantity : ℚ) else 0
    let (s, batch_no_used) :=
      match s.batches.find? findP with
      | some b =>
          ({ s with batches := updateFirst findP (registerMerge p.Quantity p.Value unit_price) s.batches },
           b.batch_no)
      | none =>
          let bno := batch_no.getD genBatchNo
          ({ s with batches := s.batches ++
              [mkBatchDoc product_id hub_id bno p.Quantity (some expiry_dt) p.Value unit_price
                now (freshOid s.batches)] },
           bno)
    let s := { s with txns := s.txns ++
      [{ txn_id := txnId, type := "IN", product_id := product_id, hub_id := hub_id,
         batch_no := batch_no_used, quantity := p.Quantity, unit_price := unit_price,
         total_value := p.Value, reference := p.Purchase_Ref, timestamp := now,
         remarks := "Register Inventory" }] }
    let warning := (expiry_dt : Int) - (now : Int) < 30
    (s, .ok { batch_no := batch_no_used, quantity_added := p.Quantity, warning := warning })
  else (s, .error (.hubNotFound hub_id))

/-- Mongo sorts documents whose sort field is missing before all documents
that have one; encode `none` below every `some`. -/
def optKey : Option Nat → Nat
  | none => 0
  | some n => n + 1

/-- The FIFO sort key of `dispatch_inventory`:
`(Expiry_Date ascending, created_at ascending)`. -/
def fifoKey (b : Batch) : Nat ×ₗ Nat :=
  toLex (optKey b.expiry_date, optKey b.created_at)

/-- The FIFO cursor order: lexicographic on `(Expiry_Date, created_at)`. -/
def fifoLE (a b : Batch) : Prop := fifoKey a ≤ fifoKey b

instance : DecidableRel fifoLE := fun a b =>
  inferInstanceAs (Decidable (fifoKey a ≤ fifoKey b))

instance : IsTotal Batch fifoLE := ⟨fun a b => le_total (fifoKey a) (fifoKey b)⟩

instance : IsTrans Batch fifoLE := ⟨fun _ _ _ h1 h2 => le_trans h1 h2⟩

/-- The dispatch cursor: `active` batches of the pair with `Quantity > 0`,
sorted by `(Expiry_Date asc, created_at asc)`. -/
def fifoCursor (s : DB) (pid hub : String) : List Batch :=
  List.insertionSort fifoLE
    (s.batches.filter (fun b => activeBatchP pid hub b && decide (0 < b.quantity)))

def oidP (o : Nat) (b : Batch) : Bool := b.oid == o

/-- The per-batch consumption write of `dispatch_inventory` (lines 379–384):
an `$inc {Quantity: -take}` keyed only on `_id` — unconditional, with no
quantity guard in the filter — followed by a re-read, flipping `status` to
`"depleted"` when the re-read quantity is ≤ 0. -/
def decBatchList (o : Nat) (take : Int) (l : List Batch) : List Batch :=
  let dec := updateFirst (oidP o) (fun x => { x with quantity := x.quantity - take }) l
  match dec.find? (oidP o) with
  | some x =>
      if x.quantity ≤ 0 then
        updateFirst (oidP o) (fun y => { y with status := "depleted" }) dec
      else dec
  | none => dec

/-- The two batch writes of one consumption step, as a whole-state function
(only the batches collection is touched). -/
def decBatch (o : Nat) (take : Int) (s : DB) : DB :=
  { s with batches := decBatchList o take s.batches }

/-- The net effect of `decBatchList` on the batch it hits: quantity lowered by
`take`, status flipped to `"depleted"` when the result is ≤ 0. -/
def decResult (take : Int) (x : Batch) : Batch :=
  if x.quantity - take ≤ 0 then
    { x with quantity := x.quantity - take, status := "depleted" }
  else { x with quantity := x.quantity - take }

/-- Request schema `DispatchRequest` (`Quantity > 0` enforced by pydantic). -/
structure DispatchPayload where
  Product_ID : String
  Quantity : Int
  From_Hub_ID : String
  To_Hub_ID : String
  Request_Ref : Option String
  Notes : Option String

inductive DispatchErr where
  | hubNotFound (hub_id : String)
  | insufficientStock (requested available : Int)
  deriving Repr, DecidableEq

structure DispatchOut where
  dispatch_id : String
  batch_consumption : List ConsumptionEntry
  remaining_quantity : Int
  deriving Repr, DecidableEq

/-- The greedy FIFO loop of `dispatch_inventory`: walk the cursor snapshot,
take `min(batch.Quantity, remaining)` from each batch, apply `decBatch`,
record one OUT transaction and one consumption entry per batch touched.
`genTxn k` stands for the generated id of the `k`-th transaction. -/
def outTxnDoc (txnId pid fromHub toHub bno : String) (take : Int) (unit_cost : ℚ)
    (now : Nat) : StockTxn :=
  { txn_id := txnId, type := "OUT", product_id := pid, hub_id := fromHub,
    batch_no := bno, quantity := take, unit_price := unit_cost,
    total_value := unit_cost * (take : ℚ), reference := none, timestamp := now,
    remarks := "Dispatch to " ++ toHub }

/-- The state after one consumption step: the two batch writes of `decBatch`
followed by the OUT transaction insert. -/
def consumeStep (txnId pid fromHub toHub : String) (now : Nat) (b : Batch) (take : Int)
    (s : DB) : DB :=
  let s1 := decBatch b.oid take s
  { s1 with txns := s1.txns ++
      [outTxnDoc txnId pid fromHub toHub b.batch_no take (b.purchase_unit_price.getD 0) now] }

def runConsume (genTxn : Nat → String) (pid fromHub toHub : String) (now : Nat) :
    List Batch → Int → Nat → DB → DB × List ConsumptionEntry
  | [], _, _, s => (s, [])
  | b :: rest, remaining, k, s =>
      if remaining ≤ 0 then (s, [])
      else if b.quantity ≤ 0 then runConsume genTxn pid fromHub toHub now rest remaining k s
      else
        let take := if b.quantity ≤ remaining then b.quantity else remaining
        let st := runConsume genTxn pid fromHub toHub now rest (remaining - take) (k + 1)
          (consumeStep (genTxn k) pid fromHub toHub now b take s)
        (st.1, { batch_no := b.batch_no, qty := take,
                 unit_cost := b.purchase_unit_price.getD 0 } :: st.2)

/-- `dispatch_inventory(payload)`: validate hubs, check aggregate availability,
consume FIFO, create the `In-Progress` dispatch record with unassigned
sentinels, and recompute the remaining total. -/
def dispatch_inventory (p : DispatchPayload) (now : Nat) (dispatchId : String)
    (genTxn : Nat → String) (s : DB) : DB × Except DispatchErr DispatchOut :=
  let from_hub := (normalizeId p.From_Hub_ID)
  let to_hub := (normalizeId p.To_Hub_ID)
  let product_id := (normalizeId p.Product_ID)
  let q := p.Quantity
  if s.hubs.contains from_hub then
    if s.hubs.contains to_hub then
      let total_available := totalAvailable s product_id from_hub
      if q > total_available then
        (s, .error (.insufficientStock q total_available))
      else
        let cursor := fifoCursor s product_id from_hub
        let st := runConsume genTxn product_id from_hub to_hub now cursor q 0 s
        let s2 := { st.1 with dispatches := st.1.dispatches ++
          [{ dispatch_id := dispatchId, product_id := product_id, from_hub_id := from_hub,
             to_hub_id := to_hub, quantity := q, batch_consumption := st.2,
             vehicle_assigned := "In-Progress", driver_assigned := "In-Progress",
             status := "In-Progress", timestamp := now, arrival_time := none }] }
        let remaining_after := totalAvailable s2 product_id from_hub
        (s2, .ok { dispatch_id := dispatchId, batch_consumption := st.2,
                   remaining_quantity := remaining_after })
    else (s, .error (.hubNotFound to_hub))
  else (s, .error (.hubNotFound from_hub))

inductive RecvErr where
  | dispatchNotFound
  | invalidState (current : String)
  deriving Repr, DecidableEq

structure RecvOut where
  dispatch_id : String
  status : String
  hub : String
  arrival_time : Nat
  deriving Repr, DecidableEq

def dispP (did : String) (d : DispatchDoc) : Bool := d.dispatch_id == did

/-- The upsert filter of the receiving reconciler:
`(Product_ID, Hub_ID, Batch_No)`, with no status condition. -/
def destP (pid hub bno : String) (b : Batch) : Bool :=
  b.product_id == pid && b.hub_id == hub && b.batch_no == bno

/-- The `$inc`+`$set` document of the receiving upsert. -/
def creditInc (qty : Int) (b : Batch) : Batch :=
  { b with quantity := b.quantity + qty, status := "active" }

/-- The document materialised when the receiving upsert misses: only the
filter equality fields plus the update are present. -/
def creditNew (pid hub bno : String) (qty : Int) (oid : Nat) : Batch :=
  { oid := oid, product_id := pid, hub_id := hub, batch_no := bno,
    quantity := qty, expiry_date := none, purchase_value := none,
    purchase_unit_price := none, status := "active", created_at := none }

/-- Step 2 of `mark_dispatch_received_service` for one consumption entry:
append the IN transaction, then upsert the destination batch keyed
`(Product_ID, Hub_ID = to_hub, Batch_No)` with `$inc {Quantity: qty}` and
`$set {status: "active"}`. An upsert-insert materialises only the filter
fields plus the update, so the created document has no expiry date, no
purchase value, no unit price and no created_at. -/
def creditEntry (pid to_hub from_hub did : String) (now : Nat) (txnId : String)
    (e : ConsumptionEntry) (s : DB) : DB :=
  let txn : StockTxn :=
    { txn_id := txnId, type := "IN", product_id := pid, hub_id := to_hub,
      batch_no := e.batch_no, quantity := e.qty, unit_price := e.unit_cost,
      total_value := e.unit_cost * (e.qty : ℚ), reference := some did, timestamp := now,
      remarks := "Received from " ++ from_hub }
  let s1 := { s with txns := s.txns ++ [txn] }
  let upP := destP pid to_hub e.batch_no
  match s1.batches.find? upP with
  | some _ =>
      let inc := updateFirst upP (creditInc e.qty) s1.batches
      { s1 with batches := inc }
  | none =>
      let nb := creditNew pid to_hub e.batch_no e.qty (freshOid s1.batches)
      { s1 with batches := s1.batches ++ [nb] }

/-- Step 2 of `mark_dispatch_received_service`: credit every entry of the
stored consumption trace, in order. -/
def creditAll (pid to_hub from_hub did : String) (now : Nat) (genTxn : Nat → String) :
    List ConsumptionEntry → Nat → DB → DB
  | [], _, s => s
  | e :: rest, k, s =>
      creditAll pid to_hub from_hub did now genTxn rest (k + 1)
        (creditEntry pid to_hub from_hub did now (genTxn k) e s)

/-- Step 3a of `mark_dispatch_received_service`: the released driver's flag is
set back to `"active"`. -/
def resetDriver (driver_id : String) (s : DB) : DB :=
  let l := updateFirst (fun d => d.driver_id == driver_id) (fun d => { d with status := "active" }) s.drivers
  { s with drivers := l }

/-- Step 3b of `mark_dispatch_received_service`: the released vehicle's flag
is set back to `"Available"`. -/
def resetVehicle (vehicle_id : String) (s : DB) : DB :=
  let l := updateFirst (fun v => v.vehicle_id == vehicle_id) (fun v => { v with status := "Available" }) s.vehicles
  { s with vehicles := l }

/-- Step 4 of `mark_dispatch_received_service`: stamp the dispatch
`Completed` with an arrival time. -/
def completeDispatch (did : String) (now : Nat) (s : DB) : DB :=
  let l := updateFirst (dispP did) (fun d => { d with status := "Completed", arrival_time := some now }) s.dispatches
  { s with dispatches := l }

/-- `mark_dispatch_received_service(dispatch_id)`: fetch the dispatch, reject
unless it is `In-Transit`, then credit the destination, release driver and
vehicle, and complete the dispatch — in that order. -/
def mark_dispatch_received_service (did : String) (now : Nat) (genTxn : Nat → String)
    (s : DB) : DB × Except RecvErr RecvOut :=
  match s.dispatches.find? (dispP did) with
  | none => (s, .error .dispatchNotFound)
  | some d =>
      if d.status == "In-Transit" then
        let s1 := creditAll d.product_id d.to_hub_id d.from_hub_id did now genTxn
          d.batch_consumption 0 s
        let s2 := resetDriver d.driver_assigned s1
        let s3 := resetVehicle d.vehicle_assigned s2
        let s4 := completeDispatch did now s3
        (s4, .ok { dispatch_id := did, status := "Completed", hub := d.to_hub_id,
                   arrival_time := now })
      else (s, .error (.invalidState d.status))

inductive AssignResult where
  | noDispatch
  | noDriver
  | noVehicle
  | assigned (driver_id vehicle_id dispatch_id : String)
  deriving Repr, DecidableEq

/-- `dispatch_vehicle_service()` (assignResources): find any `In-Progress`
dispatch, the first `"active"` driver and the first `"Available"` vehicle; on
success flip both flags busy and move the dispatch to `In-Transit` recording
the references. The code updates the dispatch by the `_id` of the document it
found, which is the first `In-Progress` one; `updateFirst` with the same
predicate targets that same document. -/
def driverAssignedF (d : Driver) : Driver := { d with status := "Assigned" }

def vehicleTransitF (v : Vehicle) : Vehicle := { v with status := "In-Transit" }

/-- The `$set` applied to the chosen dispatch by assignResources. -/
def assignSet (drvId vehId : String) (d : DispatchDoc) : DispatchDoc :=
  { d with status := "In-Transit", driver_assigned := drvId, vehicle_assigned := vehId }

def dispatch_vehicle_service (s : DB) : DB × AssignResult :=
  match s.dispatches.find? (fun d => d.status == "In-Progress") with
  | none => (s, .noDispatch)
  | some dsp =>
    match s.drivers.find? (fun d => d.status == "active") with
    | none => (s, .noDriver)
    | some drv =>
      match s.vehicles.find? (fun v => v.status == "Available") with
      | none => (s, .noVehicle)
      | some veh =>
        let drvs := updateFirst (fun d => d.driver_id == drv.driver_id) driverAssignedF s.drivers
        let s1 := { s with drivers := drvs }
        let vehs := updateFirst (fun v => v.vehicle_id == veh.vehicle_id) vehicleTransitF s1.vehicles
        let s2 := { s1 with vehicles := vehs }
        let dsps := updateFirst (fun d => d.status == "In-Progress") (assignSet drv.driver_id veh.vehicle_id) s2.dispatches
        let s3 := { s2 with dispatches := dsps }
        (s3, .assigned drv.driver_id veh.vehicle_id dsp.dispatch_id)

/-- Request schema `UpdateInventory` (optional `Quantity > 0` when present). -/
structure UpdatePayload where
  Hub_ID : String
  Product_ID : String
  Product_Name : Option String
  Quantity : Option Int
  Value : Option ℚ
  Selling_Price : Option ℚ
  Category : Option String
  Product_Description : Option String
  Expiry_Date : Option Nat
  Brand : Option String
  Batch_No : Option String

inductive UpdErr where
  | hubNotFound (hub_id : String)
  | productNotFound (product_id : String)
  deriving Repr, DecidableEq

structure UpdOut where
  batch_no : Option String
  merged : Option Bool
  new_total : Option Int
  deriving Repr, DecidableEq

/-- The master-field update step of `update_inventory` (only the truthiness
conditions the code checks). -/
def updateMasterFields (p : UpdatePayload) (pid : String) (s : DB) : DB :=
  let upd : Product → Product := fun m =>
    { m with
      product_name := (match p.Product_Name with
        | some n => if n == "" then m.product_name else (normalizeId n)
        | none => m.product_name)
    , selling_price := (p.Selling_Price.getD m.selling_price)
    , category := (match p.Category with
        | some c => (normalizeId c)
        | none => m.category)
    , product_description := (match p.Product_Description with
        | some d => some d
        | none => m.product_description)
    , brand := (match p.Brand with
        | some b => some b
        | none => m.brand) }
  { s with products := updateFirst (fun m => m.product_id == pid) upd s.products }

/-- The merge update of `update_inventory`: like `registerMerge` but the
incoming unit price falls back to the existing one when absent or 0
(Python `unit_price or existing.get("Purchase_Unit_Price", 0.0)`). -/
def updateMerge (q : Int) (v : Option ℚ) (unit_price : Option ℚ) (x : Batch) : Batch :=
  let u_eff : ℚ := match unit_price with
    | some u => if u == 0 then x.purchase_unit_price.getD 0 else u
    | none => x.purchase_unit_price.getD 0
  let new_qty := x.quantity + q
  let new_unit_price : ℚ :=
    if new_qty > 0 then ((x.purchase_unit_price.getD 0) * x.quantity + u_eff * q) / new_qty
    else u_eff
  { x with quantity := new_qty
         , purchase_value := some ((x.purchase_value.getD 0) + v.getD 0)
         , purchase_unit_price := some new_unit_price }

/-- The merge-or-create step shared by stock-adding paths: when a lookup
predicate exists and matches, rewrite the first matching batch with `merge`
and report the matched document; otherwise insert `nb`. -/
def upsertByFind (findP : Option (Batch → Bool)) (merge : Batch → Batch) (nb : Batch)
    (l : List Batch) : List Batch × Option Batch :=
  match findP with
  | some pr =>
      (match l.find? pr with
       | some b => (updateFirst pr merge l, some b)
       | none => (l ++ [nb], none))
  | none => (l ++ [nb], none)

/-- `update_inventory(payload)`: update master fields; when a quantity is
supplied, merge into the batch matched by `Batch_No` (no status filter) or by
`(Expiry_Date, status active)`, else create a new `active` batch; append one
IN transaction. -/
def update_inventory (p : UpdatePayload) (now : Nat) (genBatchNo txnId : String)
    (s : DB) : DB × Except UpdErr UpdOut :=
  let hub_id := (normalizeId p.Hub_ID)
  let product_id := (normalizeId p.Product_ID)
  if s.hubs.contains hub_id then
    if (s.products.find? (fun m => m.product_id == product_id)).isSome then
      let s := updateMasterFields p product_id s
      match p.Quantity with
      | none => (s, .ok { batch_no := none, merged := none, new_total := none })
      | some q =>
        let expiry_dt := p.Expiry_Date
        let batch_no : Option String := match p.Batch_No with
          | some b => if (normalizeId b) == "" then none else some (normalizeId b)
          | none => none
        let unit_price : Option ℚ := match p.Value with
          | some v => some (v / (q : ℚ))
          | none => none
        let findP : Option (Batch → Bool) := match batch_no with
          | some b => some (fun x => x.product_id == product_id && x.hub_id == hub_id &&
              x.batch_no == b)
          | none => match expiry_dt with
            | some ed => some (fun x => x.product_id == product_id && x.hub_id == hub_id &&
                x.expiry_date == some ed && x.status == "active")
            | none => none
        let nb := mkBatchDoc product_id hub_id (batch_no.getD genBatchNo) q expiry_dt
          (p.Value.getD 0) (unit_price.getD 0) now (freshOid s.batches)
        let up := upsertByFind findP (updateMerge q p.Value unit_price) nb s.batches
        let batch_no_used := match up.2 with
          | some b => b.batch_no
          | none => batch_no.getD genBatchNo
        let s2 := { s with batches := up.1, txns := s.txns ++
          [{ txn_id := txnId, type := "IN", product_id := product_id, hub_id := hub_id,
             batch_no := batch_no_used, quantity := q, unit_price := unit_price.getD 0,
             total_value := p.Value.getD 0, reference := none, timestamp := now,
             remarks := "Update Inventory - Add Stock" }] }
        let new_total :=
          ((s2.batches.find? (fun b => b.batch_no == batch_no_used)).map (·.quantity)).getD 0
        (s2, .ok { batch_no := some batch_no_used, merged := some up.2.isSome,
                   new_total := some new_total })
    else (s, .error (.productNotFound product_id))
  else (s, .error (.hubNotFound hub_id))

/-- A dispatch is in-flight while it is `In-Progress` or `In-Transit`. -/
def inFlight (d : DispatchDoc) : Bool :=
  d.status == "In-Progress" || d.status == "In-Transit"

/-- Two distinct in-flight dispatches hold the same driver. -/
def doubleHoldDriver (s : DB) : Bool :=
  s.dispatches.any (fun d1 => s.dispatches.any (fun d2 =>
    d1.dispatch_id != d2.dispatch_id && inFlight d1 && inFlight d2 &&
    d1.driver_assigned == d2.driver_assigned))

/-! Generic lemmas about the Mongo-primitive list operations. -/

theorem updateFirst_of_forall_neg {p : α → Bool} {f : α → α} {l : List α}
    (h : ∀ x ∈ l, p x = false) : updateFirst p f l = l := by
  induction l with
  | nil => rfl
  | cons x xs ih =>
      have hx : p x = false := h x (by simp)
      simp only [updateFirst, hx, Bool.false_eq_true, if_false, List.cons.injEq, true_and]
      exact ih fun y hy => h y (by simp [hy])

theorem updateFirst_append_left {p : α → Bool} {f : α → α} {l₁ l₂ : List α}
    (h : ∀ x ∈ l₁, p x = false) :
    updateFirst p f (l₁ ++ l₂) = l₁ ++ updateFirst p f l₂ := by
  induction l₁ with
  | nil => rfl
  | cons x xs ih =>
      have hx : p x = false := h x (by simp)
      simp only [List.cons_append, updateFirst, hx, Bool.false_eq_true, if_false,
        List.cons.injEq, true_and]
      exact ih fun y hy => h y (by simp [hy])

theorem updateFirst_cons_pos {p : α → Bool} {f : α → α} {b : α} {l : List α}
    (h : p b = true) : updateFirst p f (b :: l) = f b :: l := by
  simp [updateFirst, h]

theorem find?_decomp {p : α → Bool} {l : List α} {b : α} (h : l.find? p = some b) :
    ∃ l₁ l₂, l = l₁ ++ b :: l₂ ∧ (∀ x ∈ l₁, p x = false) ∧ p b = true := by
  induction l with
  | nil => simp at h
  | cons x xs ih =>
      by_cases hx : p x = true
      · rw [List.find?_cons_of_pos _ hx] at h
        have hxb : x = b := by simpa using h
        subst hxb
        exact ⟨[], xs, rfl, by simp, hx⟩
      · rw [List.find?_cons_of_neg _ hx] at h
        obtain ⟨l₁, l₂, rfl, hl₁, hb⟩ := ih h
        exact ⟨x :: l₁, l₂, rfl, by
          intro y hy
          rcases List.mem_cons.mp hy with rfl | hy
          · simpa using hx
          · exact hl₁ y hy, hb⟩

theorem updateFirst_eq_of_find? {p : α → Bool} {f : α → α} {l l₁ l₂ : List α} {b : α}
    (hl : l = l₁ ++ b :: l₂) (h₁ : ∀ x ∈ l₁, p x = false) (hb : p b = true) :
    updateFirst p f l = l₁ ++ f b :: l₂ := by
  subst hl
  rw [updateFirst_append_left h₁, updateFirst_cons_pos hb]

theorem find?_append_left_neg {p : α → Bool} {l₁ l₂ : List α}
    (h : ∀ x ∈ l₁, p x = false) : (l₁ ++ l₂).find? p = l₂.find? p := by
  induction l₁ with
  | nil => rfl
  | cons x xs ih =>
      rw [List.cons_append, List.find?_cons_of_neg _ (by simp [h x (by simp)])]
      exact ih fun y hy => h y (by simp [hy])

theorem find?_updateFirst_self {p : α → Bool} {f : α → α} {l : List α}
    (hpf : ∀ x, p x = true → p (f x) = true) :
    (updateFirst p f l).find? p = (l.find? p).map f := by
  induction l with
  | nil => rfl
  | cons x xs ih =>
      by_cases hx : p x = true
      · rw [updateFirst_cons_pos hx, List.find?_cons_of_pos _ (hpf x hx),
          List.find?_cons_of_pos _ hx]
        rfl
      · have hx' : p x = false := by simpa using hx
        simp only [updateFirst, hx', Bool.false_eq_true, if_false]
        rw [List.find?_cons_of_neg _ (by simp [hx']), List.find?_cons_of_neg _ (by simp [hx'])]
        exact ih

theorem find?_updateFirst_other {p q : α → Bool} {f : α → α} {l : List α}
    (h : ∀ x, p x = true → (q x = false ∧ q (f x) = false)) :
    (updateFirst p f l).find? q = l.find? q := by
  induction l with
  | nil => rfl
  | cons x xs ih =>
      by_cases hx : p x = true
      · rw [updateFirst_cons_pos hx, List.find?_cons_of_neg _ (by simp [(h x hx).2]),
          List.find?_cons_of_neg _ (by simp [(h x hx).1])]
      · have hx' : p x = false := by simpa using hx
        simp only [updateFirst, hx', Bool.false_eq_true, if_false]
        by_cases hq : q x = true
        · rw [List.find?_cons_of_pos _ hq, List.find?_cons_of_pos _ hq]
        · rw [List.find?_cons_of_neg _ hq, List.find?_cons_of_neg _ hq]
          exact ih

theorem mem_updateFirst {p : α → Bool} {f : α → α} {l : List α} {y : α}
    (hy : y ∈ updateFirst p f l) : y ∈ l ∨ ∃ x ∈ l, p x = true ∧ y = f x := by
  induction l with
  | nil => simp [updateFirst] at hy
  | cons x xs ih =>
      by_cases hx : p x = true
      · rw [updateFirst_cons_pos hx] at hy
        rcases List.mem_cons.mp hy with rfl | hy
        · exact Or.inr ⟨x, by simp, hx, rfl⟩
        · exact Or.inl (by simp [hy])
      · have hx' : p x = false := by simpa using hx
        simp only [updateFirst, hx', Bool.false_eq_true, if_false] at hy
        rcases List.mem_cons.mp hy with rfl | hy
        · exact Or.inl (by simp)
        · rcases ih hy with h | ⟨z, hz, hpz, rfl⟩
          · exact Or.inl (by simp [h])
          · exact Or.inr ⟨z, by simp [hz], hpz, rfl⟩

/-! Lemmas about `qtySum`. -/

theorem qtySum_append {p : Batch → Bool} {l₁ l₂ : List Batch} :
    qtySum p (l₁ ++ l₂) = qtySum p l₁ + qtySum p l₂ := by
  simp [qtySum, List.filter_append]

theorem qtySum_cons {p : Batch → Bool} {b : Batch} {l : List Batch} :
    qtySum p (b :: l) = (if p b then b.quantity else 0) + qtySum p l := by
  by_cases hb : p b = true
  · simp [qtySum, List.filter_cons, hb]
  · have hb' : p b = false := by simpa using hb
    simp [qtySum, List.filter_cons, hb']

theorem qtySum_updateFirst {p q : Batch → Bool} {f : Batch → Batch} {l : List Batch} {b : Batch}
    (h : l.find? q = some b) :
    qtySum p (updateFirst q f l) =
      qtySum p l + ((if p (f b) then (f b).quantity else 0) - (if p b then b.quantity else 0)) := by
  obtain ⟨l₁, l₂, rfl, h₁, hb⟩ := find?_decomp h
  rw [updateFirst_eq_of_find? rfl h₁ hb, qtySum_append, qtySum_append, qtySum_cons, qtySum_cons]
  ring

theorem qtySum_perm {p : Batch → Bool} {l₁ l₂ : List Batch} (h : l₁.Perm l₂) :
    qtySum p l₁ = qtySum p l₂ := by
  have := ((h.filter p).map (fun b : Batch => b.quantity)).sum_eq
  simpa [qtySum] using this

/-- Dropping the `Quantity > 0` conjunct from a filter does not change the
quantity sum when every quantity is nonnegative. -/
theorem qtySum_pos_filter {p : Batch → Bool} {l : List Batch}
    (h : ∀ b ∈ l, 0 ≤ b.quantity) :
    qtySum (fun b => p b && decide (0 < b.quantity)) l = qtySum p l := by
  induction l with
  | nil => rfl
  | cons x xs ih =>
      have hx := h x (by simp)
      have ihx := ih fun b hb => h b (by simp [hb])
      by_cases hp : p x = true
      · by_cases hq : (0 : Int) < x.quantity
        · rw [qtySum_cons, qtySum_cons]
          simp [hp, hq, ihx]
        · have hx0 : x.quantity = 0 := le_antisymm (not_lt.mp hq) hx
          rw [qtySum_cons, qtySum_cons]
          simp [hp, hq, hx0, ihx]
      · have hp' : p x = false := by simpa using hp
        rw [qtySum_cons, qtySum_cons]
        simp [hp', ihx]

/-! Lemmas about one consumption step. -/

/-- Sum of the quantities of a consumption trace. -/
def traceSum (tr : List ConsumptionEntry) : Int := (tr.map (·.qty)).sum

theorem traceSum_cons {e : ConsumptionEntry} {tr : List ConsumptionEntry} :
    traceSum (e :: tr) = e.qty + traceSum tr := by
  simp [traceSum]

theorem oidP_decResult {o : Nat} {take : Int} {x : Batch} :
    oidP o (decResult take x) = oidP o x := by
  unfold decResult
  split <;> rfl

theorem decBatchList_eq {o : Nat} {take : Int} {l : List Batch} {b : Batch}
    (h : l.find? (oidP o) = some b) :
    decBatchList o take l = updateFirst (oidP o) (decResult take) l := by
  obtain ⟨l₁, l₂, rfl, h₁, hb⟩ := find?_decomp h
  have hdec : updateFirst (oidP o) (fun x => { x with quantity := x.quantity - take })
      (l₁ ++ b :: l₂) = l₁ ++ { b with quantity := b.quantity - take } :: l₂ :=
    updateFirst_eq_of_find? rfl h₁ hb
  have hb' : oidP o { b with quantity := b.quantity - take } = true := hb
  have hfind2 : (l₁ ++ { b with quantity := b.quantity - take } :: l₂).find? (oidP o) =
      some { b with quantity := b.quantity - take } := by
    rw [find?_append_left_neg h₁, List.find?_cons_of_pos _ hb']
  have hrhs : updateFirst (oidP o) (decResult take) (l₁ ++ b :: l₂) =
      l₁ ++ decResult take b :: l₂ := updateFirst_eq_of_find? rfl h₁ hb
  have hflip : updateFirst (oidP o) (fun y => { y with status := "depleted" })
      (l₁ ++ { b with quantity := b.quantity - take } :: l₂) =
      l₁ ++ { b with quantity := b.quantity - take, status := "depleted" } :: l₂ :=
    updateFirst_eq_of_find? rfl h₁ hb'
  unfold decBatchList
  simp only [hdec, hfind2]
  rw [hrhs]
  unfold decResult
  by_cases hle : b.quantity - take ≤ 0
  · rw [if_pos hle, if_pos hle, hflip]
  · rw [if_neg hle, if_neg hle]

theorem decBatchList_find?_self {o : Nat} {take : Int} {l : List Batch} {b : Batch}
    (h : l.find? (oidP o) = some b) :
    (decBatchList o take l).find? (oidP o) = some (decResult take b) := by
  rw [decBatchList_eq h, find?_updateFirst_self (fun x hx => by rw [oidP_decResult]; exact hx), h]
  rfl

theorem decBatchList_find?_other {o o' : Nat} {take : Int} {l : List Batch} {b : Batch}
    (h : l.find? (oidP o) = some b) (hne : o' ≠ o) :
    (decBatchList o take l).find? (oidP o') = l.find? (oidP o') := by
  rw [decBatchList_eq h]
  refine find?_updateFirst_other fun x hx => ?_
  have hxo : x.oid = o := by simpa [oidP] using hx
  have hne' : (o == o') = false := beq_eq_false_iff_ne.mpr fun hc => hne hc.symm
  constructor
  · simp [oidP, hxo, hne']
  · rw [oidP_decResult]
    simp [oidP, hxo, hne']

theorem decBatchList_qtySum {p : Batch → Bool} {o : Nat} {take : Int} {l : List Batch}
    {b : Batch} (h : l.find? (oidP o) = some b) :
    qtySum p (decBatchList o take l) =
      qtySum p l + ((if p (decResult take b) then (decResult take b).quantity else 0) -
        (if p b then b.quantity else 0)) := by
  rw [decBatchList_eq h]
  exact qtySum_updateFirst h

/-- Contribution of the decremented batch to an active-filtered sum: with
`take ≤ quantity` it always drops by exactly `take`, whether or not the batch
is flipped to `depleted` (a flipped batch has quantity 0). -/
theorem contrib_active_decResult {pid hub : String} {take : Int} {b : Batch}
    (hb : activeBatchP pid hub b = true) (hle : take ≤ b.quantity) :
    (if activeBatchP pid hub (decResult take b) then (decResult take b).quantity else 0) =
      b.quantity - take := by
  unfold decResult
  by_cases h0 : b.quantity - take ≤ 0
  · have : b.quantity - take = 0 := le_antisymm h0 (by omega)
    rw [if_pos h0]
    simp [activeBatchP, this]
  · rw [if_neg h0]
    have hb' : activeBatchP pid hub { b with quantity := b.quantity - take } = true := by
      simpa [activeBatchP] using hb
    simp [hb']

/-- Contribution of the decremented batch to a product-wide sum: drops by
`take` unconditionally (the status flip is invisible to this filter). -/
theorem contrib_pid_decResult {pid : String} {take : Int} {b : Batch}
    (hb : (b.product_id == pid) = true) :
    (if (decResult take b).product_id == pid then (decResult take b).quantity else 0) =
      b.quantity - take := by
  unfold decResult
  split <;> simp [hb]

/-! Lemmas about the FIFO consumption loop. -/

theorem consumeStep_batches {txnId pid fromHub toHub : String} {now : Nat} {b : Batch}
    {take : Int} {s : DB} :
    (consumeStep txnId pid fromHub toHub now b take s).batches =
      decBatchList b.oid take s.batches := rfl

theorem consumeStep_proj {txnId pid fromHub toHub : String} {now : Nat} {b : Batch}
    {take : Int} {s : DB} :
    (consumeStep txnId pid fromHub toHub now b take s).hubs = s.hubs ∧
    (consumeStep txnId pid fromHub toHub now b take s).products = s.products ∧
    (consumeStep txnId pid fromHub toHub now b take s).dispatches = s.dispatches ∧
    (consumeStep txnId pid fromHub toHub now b take s).drivers = s.drivers ∧
    (consumeStep txnId pid fromHub toHub now b take s).vehicles = s.vehicles :=
  ⟨rfl, rfl, rfl, rfl, rfl⟩

theorem runConsume_proj (genTxn : Nat → String) (pid fromHub toHub : String) (now : Nat) :
    ∀ (cursor : List Batch) (remaining : Int) (k : Nat) (s : DB),
      (runConsume genTxn pid fromHub toHub now cursor remaining k s).1.hubs = s.hubs ∧
      (runConsume genTxn pid fromHub toHub now cursor remaining k s).1.products = s.products ∧
      (runConsume genTxn pid fromHub toHub now cursor remaining k s).1.dispatches = s.dispatches ∧
      (runConsume genTxn pid fromHub toHub now cursor remaining k s).1.drivers = s.drivers ∧
      (runConsume genTxn pid fromHub toHub now cursor remaining k s).1.vehicles = s.vehicles := by
  intro cursor
  induction cursor with
  | nil => intro remaining k s; simp [runConsume]
  | cons b rest ih =>
      intro remaining k s
      rw [runConsume]
      by_cases hr : remaining ≤ 0
      · rw [if_pos hr]; exact ⟨rfl, rfl, rfl, rfl, rfl⟩
      · rw [if_neg hr]
        by_cases hq : b.quantity ≤ 0
        · rw [if_pos hq]; exact ih remaining k s
        · rw [if_neg hq]
          dsimp only
          exact ih _ _ _

theorem runConsume_traceSum (genTxn : Nat → String) (pid fromHub toHub : String) (now : Nat) :
    ∀ (cursor : List Batch) (remaining : Int) (k : Nat) (s : DB),
      0 ≤ remaining →
      remaining ≤ ((cursor.map (·.quantity)).sum) →
      (∀ b ∈ cursor, 0 < b.quantity) →
      traceSum (runConsume genTxn pid fromHub toHub now cursor remaining k s).2 = remaining := by
  intro cursor
  induction cursor with
  | nil =>
      intro remaining k s h0 hle _
      simp only [List.map_nil, List.sum_nil] at hle
      have : remaining = 0 := le_antisymm hle h0
      simp [runConsume, traceSum, this]
  | cons b rest ih =>
      intro remaining k s h0 hle hpos
      have hb : 0 < b.quantity := hpos b (by simp)
      have hrestpos : ∀ b' ∈ rest, 0 < b'.quantity := fun b' h' => hpos b' (by simp [h'])
      have hrestsum : 0 ≤ ((rest.map (·.quantity)).sum) := by
        refine List.sum_nonneg ?_
        intro x hx
        obtain ⟨b', hb', rfl⟩ := List.mem_map.mp hx
        exact le_of_lt (hrestpos b' hb')
      simp only [List.map_cons, List.sum_cons] at hle
      rw [runConsume]
      by_cases hr : remaining ≤ 0
      · have : remaining = 0 := le_antisymm hr h0
        rw [if_pos hr]
        simp [traceSum, this]
      · rw [if_neg hr, if_neg (by omega : ¬ b.quantity ≤ 0)]
        dsimp only
        by_cases hbr : b.quantity ≤ remaining
        · simp only [if_pos hbr]
          rw [traceSum_cons]
          rw [ih (remaining - b.quantity) (k + 1) _ (by omega) (by omega) hrestpos]
          dsimp only
          omega
        · simp only [if_neg hbr]
          rw [traceSum_cons]
          rw [ih (remaining - remaining) (k + 1) _ (by omega) (by omega) hrestpos]
          dsimp only
          omega

theorem decResult_quantity {take : Int} {x : Batch} :
    (decResult take x).quantity = x.quantity - take := by
  unfold decResult
  split <;> rfl

theorem decResult_status_pos {take : Int} {x : Batch} (h : ¬ x.quantity - take ≤ 0) :
    (decResult take x).status = x.status := by
  unfold decResult
  rw [if_neg h]

theorem decResult_status_nonpos {take : Int} {x : Batch} (h : x.quantity - take ≤ 0) :
    (decResult take x).status = "depleted" := by
  unfold decResult
  rw [if_pos h]

/-- In an oid-deduplicated batch list, `find_one` by a member's `_id` returns
exactly that member. -/
theorem find?_oid_of_nodup {l : List Batch} (hnd : (l.map (·.oid)).Nodup) :
    ∀ {b : Batch}, b ∈ l → l.find? (oidP b.oid) = some b := by
  induction l with
  | nil => intro b hb; simp at hb
  | cons x xs ih =>
      intro b hb
      rw [List.map_cons] at hnd
      obtain ⟨hx, hndrest⟩ := List.nodup_cons.mp hnd
      rcases List.mem_cons.mp hb with rfl | hb'
      · exact List.find?_cons_of_pos _ (by simp [oidP])
      · have hbx : b.oid ∈ xs.map (·.oid) := List.mem_map.mpr ⟨b, hb', rfl⟩
        have hne : oidP b.oid x = false := by
          simp only [oidP]
          refine beq_eq_false_iff_ne.mpr ?_
          intro hc
          exact hx (hc ▸ hbx)
        rw [List.find?_cons_of_neg _ (by simp [hne])]
        exact ih hndrest hb'

theorem runConsume_qtySum (genTxn : Nat → String) (pid fromHub toHub : String) (now : Nat)
    (p : Batch → Bool) :
    ∀ (cursor : List Batch) (remaining : Int) (k : Nat) (s : DB),
      (∀ b ∈ cursor, s.batches.find? (oidP b.oid) = some b) →
      (cursor.map (·.oid)).Nodup →
      (∀ b ∈ cursor, 0 < b.quantity) →
      (∀ b ∈ cursor, ∀ take : Int, 0 < take → take ≤ b.quantity →
        (if p (decResult take b) then (decResult take b).quantity else 0) =
          (if p b then b.quantity else 0) - take) →
      qtySum p (runConsume genTxn pid fromHub toHub now cursor remaining k s).1.batches =
        qtySum p s.batches -
          traceSum (runConsume genTxn pid fromHub toHub now cursor remaining k s).2 := by
  intro cursor
  induction cursor with
  | nil =>
      intro remaining k s _ _ _ _
      simp [runConsume, traceSum]
  | cons b rest ih =>
      intro remaining k s hfind hnd hpos hctr
      have hb : 0 < b.quantity := hpos b (by simp)
      have hfb : s.batches.find? (oidP b.oid) = some b := hfind b (by simp)
      rw [List.map_cons] at hnd
      have hndc := List.nodup_cons.mp hnd
      rw [runConsume]
      by_cases hr : remaining ≤ 0
      · rw [if_pos hr]; simp [traceSum]
      · rw [if_neg hr, if_neg (by omega : ¬ b.quantity ≤ 0)]
        dsimp only
        have key : ∀ take : Int, 0 < take → take ≤ b.quantity →
            qtySum p (runConsume genTxn pid fromHub toHub now rest (remaining - take) (k + 1)
              (consumeStep (genTxn k) pid fromHub toHub now b take s)).1.batches =
              qtySum p s.batches - take -
                traceSum (runConsume genTxn pid fromHub toHub now rest (remaining - take) (k + 1)
                  (consumeStep (genTxn k) pid fromHub toHub now b take s)).2 := by
          intro take htpos htle
          set s' := consumeStep (genTxn k) pid fromHub toHub now b take s with hs'
          have hbatches : s'.batches = decBatchList b.oid take s.batches := consumeStep_batches
          have hfind' : ∀ b' ∈ rest, s'.batches.find? (oidP b'.oid) = some b' := by
            intro b' hb'
            have hne : b'.oid ≠ b.oid := by
              intro hc
              exact hndc.1 (hc ▸ List.mem_map.mpr ⟨b', hb', rfl⟩)
            rw [hbatches, decBatchList_find?_other hfb hne]
            exact hfind b' (by simp [hb'])
          have hsum' : qtySum p s'.batches = qtySum p s.batches - take := by
            rw [hbatches, decBatchList_qtySum hfb,
              hctr b (by simp) take htpos htle]
            ring
          rw [ih (remaining - take) (k + 1) s' hfind' hndc.2
            (fun b' h' => hpos b' (by simp [h']))
            (fun b' h' take' ht1 ht2 => hctr b' (by simp [h']) take' ht1 ht2), hsum']
        by_cases hbr : b.quantity ≤ remaining
        · simp only [if_pos hbr]
          rw [traceSum_cons, key b.quantity hb le_rfl]
          dsimp only
          omega
        · simp only [if_neg hbr]
          rw [traceSum_cons, key remaining (by omega) (by omega)]
          dsimp only
          omega

theorem runConsume_find?_untouched (genTxn : Nat → String) (pid fromHub toHub : String)
    (now : Nat) :
    ∀ (cursor : List Batch) (remaining : Int) (k : Nat) (s : DB) (o : Nat),
      (∀ b ∈ cursor, s.batches.find? (oidP b.oid) = some b) →
      (cursor.map (·.oid)).Nodup →
      (o ∉ cursor.map (·.oid)) →
      (runConsume genTxn pid fromHub toHub now cursor remaining k s).1.batches.find? (oidP o) =
        s.batches.find? (oidP o) := by
  intro cursor
  induction cursor with
  | nil => intro remaining k s o _ _ _; simp [runConsume]
  | cons b rest ih =>
      intro remaining k s o hfind hnd ho
      have hfb : s.batches.find? (oidP b.oid) = some b := hfind b (by simp)
      rw [List.map_cons] at hnd
      have hndc := List.nodup_cons.mp hnd
      have hob : o ≠ b.oid := by
        intro hc
        exact ho (by simp [hc])
      have horest : o ∉ rest.map (·.oid) := fun hc => ho (by simp [hc])
      rw [runConsume]
      by_cases hr : remaining ≤ 0
      · rw [if_pos hr]
      · rw [if_neg hr]
        by_cases hq : b.quantity ≤ 0
        · rw [if_pos hq]
          exact ih remaining k s o (fun b' hb' => hfind b' (by simp [hb'])) hndc.2 horest
        · rw [if_neg hq]
          dsimp only
          have step : ∀ take : Int,
              (consumeStep (genTxn k) pid fromHub toHub now b take s).batches.find? (oidP o) =
                s.batches.find? (oidP o) := by
            intro take
            rw [consumeStep_batches, decBatchList_find?_other hfb hob]
          have hfind' : ∀ take : Int, ∀ b' ∈ rest,
              (consumeStep (genTxn k) pid fromHub toHub now b take s).batches.find?
                (oidP b'.oid) = some b' := by
            intro take b' hb'
            have hne : b'.oid ≠ b.oid := by
              intro hc
              exact hndc.1 (hc ▸ List.mem_map.mpr ⟨b', hb', rfl⟩)
            rw [consumeStep_batches, decBatchList_find?_other hfb hne]
            exact hfind b' (by simp [hb'])
          rw [ih _ _ _ o (hfind' _) hndc.2 horest, step]

theorem runConsume_nonneg (genTxn : Nat → String) (pid fromHub toHub : String) (now : Nat) :
    ∀ (cursor : List Batch) (remaining : Int) (k : Nat) (s : DB),
      (∀ b ∈ cursor, s.batches.find? (oidP b.oid) = some b) →
      (cursor.map (·.oid)).Nodup →
      (∀ x ∈ s.batches, 0 ≤ x.quantity) →
      ∀ x ∈ (runConsume genTxn pid fromHub toHub now cursor remaining k s).1.batches,
        0 ≤ x.quantity := by
  intro cursor
  induction cursor with
  | nil => intro remaining k s _ _ hnn x hx; exact hnn x (by simpa [runConsume] using hx)
  | cons b rest ih =>
      intro remaining k s hfind hnd hnn
      have hfb : s.batches.find? (oidP b.oid) = some b := hfind b (by simp)
      rw [List.map_cons] at hnd
      have hndc := List.nodup_cons.mp hnd
      rw [runConsume]
      by_cases hr : remaining ≤ 0
      · rw [if_pos hr]; exact hnn
      · rw [if_neg hr]
        by_cases hq : b.quantity ≤ 0
        · rw [if_pos hq]
          exact ih remaining k s (fun b' hb' => hfind b' (by simp [hb'])) hndc.2 hnn
        · rw [if_neg hq]
          dsimp only
          have key : ∀ take : Int, take ≤ b.quantity →
              ∀ x ∈ (runConsume genTxn pid fromHub toHub now rest (remaining - take) (k + 1)
                (consumeStep (genTxn k) pid fromHub toHub now b take s)).1.batches,
                0 ≤ x.quantity := by
            intro take htle
            set s' := consumeStep (genTxn k) pid fromHub toHub now b take s with hs'
            obtain ⟨l₁, l₂, hdecomp, h₁, hbP⟩ := find?_decomp hfb
            have hbatches : s'.batches = l₁ ++ decResult take b :: l₂ := by
              rw [hs', consumeStep_batches, decBatchList_eq hfb,
                updateFirst_eq_of_find? hdecomp h₁ hbP]
            have hfind' : ∀ b' ∈ rest, s'.batches.find? (oidP b'.oid) = some b' := by
              intro b' hb'
              have hne : b'.oid ≠ b.oid := by
                intro hc
                exact hndc.1 (hc ▸ List.mem_map.mpr ⟨b', hb', rfl⟩)
              rw [hs', consumeStep_batches, decBatchList_find?_other hfb hne]
              exact hfind b' (by simp [hb'])
            have hnn' : ∀ x ∈ s'.batches, 0 ≤ x.quantity := by
              intro x hx
              rw [hbatches] at hx
              rcases List.mem_append.mp hx with hx1 | hx2
              · exact hnn x (by rw [hdecomp]; exact List.mem_append.mpr (Or.inl hx1))
              · rcases List.mem_cons.mp hx2 with rfl | hx3
                · rw [decResult_quantity]
                  have hbq : 0 ≤ b.quantity := hnn b (by rw [hdecomp]; simp)
                  omega
                · exact hnn x (by rw [hdecomp]; simp [hx3])
            exact ih (remaining - take) (k + 1) s' hfind' hndc.2 hnn'
          by_cases hbr : b.quantity ≤ remaining
          · simp only [if_pos hbr]
            exact key b.quantity le_rfl
          · simp only [if_neg hbr]
            exact key remaining (by omega)

theorem runConsume_evolution (genTxn : Nat → String) (pid fromHub toHub : String) (now : Nat) :
    ∀ (cursor : List Batch) (remaining : Int) (k : Nat) (s : DB),
      (∀ b ∈ cursor, s.batches.find? (oidP b.oid) = some b) →
      (cursor.map (·.oid)).Nodup →
      (∀ b ∈ cursor, 0 < b.quantity) →
      (∀ b ∈ cursor, b.status = "active") →
      ∀ o b_old, s.batches.find? (oidP o) = some b_old →
        ∃ b_new,
          (runConsume genTxn pid fromHub toHub now cursor remaining k s).1.batches.find?
            (oidP o) = some b_new ∧
          (b_new = b_old ∨
            (b_old.status = "active" ∧ 0 ≤ b_new.quantity ∧ b_new.quantity < b_old.quantity ∧
              ((b_new.quantity = 0 ∧ b_new.status = "depleted") ∨
               (0 < b_new.quantity ∧ b_new.status = "active")))) := by
  intro cursor
  induction cursor with
  | nil =>
      intro remaining k s _ _ _ _ o b_old hold
      exact ⟨b_old, by simpa [runConsume] using hold, Or.inl rfl⟩
  | cons b rest ih =>
      intro remaining k s hfind hnd hpos hact o b_old hold
      have hfb : s.batches.find? (oidP b.oid) = some b := hfind b (by simp)
      rw [List.map_cons] at hnd
      have hndc := List.nodup_cons.mp hnd
      rw [runConsume]
      by_cases hr : remaining ≤ 0
      · rw [if_pos hr]; exact ⟨b_old, hold, Or.inl rfl⟩
      · have hbq : 0 < b.quantity := hpos b (by simp)
        rw [if_neg hr, if_neg (by omega : ¬ b.quantity ≤ 0)]
        dsimp only
        have key : ∀ take : Int, 0 < take → take ≤ b.quantity →
            ∃ b_new,
              (runConsume genTxn pid fromHub toHub now rest (remaining - take) (k + 1)
                (consumeStep (genTxn k) pid fromHub toHub now b take s)).1.batches.find?
                (oidP o) = some b_new ∧
              (b_new = b_old ∨
                (b_old.status = "active" ∧ 0 ≤ b_new.quantity ∧
                  b_new.quantity < b_old.quantity ∧
                  ((b_new.quantity = 0 ∧ b_new.status = "depleted") ∨
                   (0 < b_new.quantity ∧ b_new.status = "active")))) := by
          intro take htpos htle
          set s' := consumeStep (genTxn k) pid fromHub toHub now b take s with hs'
          have hfind' : ∀ b' ∈ rest, s'.batches.find? (oidP b'.oid) = some b' := by
            intro b' hb'
            have hne : b'.oid ≠ b.oid := by
              intro hc
              exact hndc.1 (hc ▸ List.mem_map.mpr ⟨b', hb', rfl⟩)
            rw [hs', consumeStep_batches, decBatchList_find?_other hfb hne]
            exact hfind b' (by simp [hb'])
          by_cases hob : o = b.oid
          · subst hob
            have hbold : b_old = b := by
              rw [hold] at hfb
              exact Option.some.injEq _ _ ▸ hfb
            subst hbold
            have hself : s'.batches.find? (oidP b_old.oid) = some (decResult take b_old) := by
              rw [hs', consumeStep_batches]
              exact decBatchList_find?_self hfb
            have huntouched :
                (runConsume genTxn pid fromHub toHub now rest (remaining - take) (k + 1)
                  s').1.batches.find? (oidP b_old.oid) = s'.batches.find? (oidP b_old.oid) :=
              runConsume_find?_untouched genTxn pid fromHub toHub now rest _ _ s' b_old.oid
                hfind' hndc.2 hndc.1
            refine ⟨decResult take b_old, by rw [huntouched, hself], Or.inr ?_⟩
            have hstat : b_old.status = "active" := hact b_old (by simp)
            refine ⟨hstat, ?_, ?_, ?_⟩
            · rw [decResult_quantity]; omega
            · rw [decResult_quantity]; omega
            · by_cases h0 : b_old.quantity - take ≤ 0
              · exact Or.inl ⟨by rw [decResult_quantity]; omega,
                  decResult_status_nonpos h0⟩
              · exact Or.inr ⟨by rw [decResult_quantity]; omega,
                  by rw [decResult_status_pos h0, hstat]⟩
          · have hold' : s'.batches.find? (oidP o) = some b_old := by
              rw [hs', consumeStep_batches, decBatchList_find?_other hfb hob]
              exact hold
            exact ih (remaining - take) (k + 1) s' hfind' hndc.2
              (fun b' h' => hpos b' (by simp [h'])) (fun b' h' => hact b' (by simp [h']))
              o b_old hold'
        by_cases hbr : b.quantity ≤ remaining
        · simp only [if_pos hbr]
          exact key b.quantity hbq le_rfl
        · simp only [if_neg hbr]
          exact key remaining (by omega) (by omega)

/-! Facts about the FIFO cursor snapshot. -/

theorem fifoCursor_perm (s : DB) (pid hub : String) :
    (fifoCursor s pid hub).Perm
      (s.batches.filter (fun b => activeBatchP pid hub b && decide (0 < b.quantity))) :=
  List.perm_insertionSort _ _

theorem fifoCursor_sorted (s : DB) (pid hub : String) :
    (fifoCursor s pid hub).Sorted fifoLE :=
  List.sorted_insertionSort _ _

theorem fifoCursor_mem {s : DB} {pid hub : String} {b : Batch}
    (hb : b ∈ fifoCursor s pid hub) :
    b ∈ s.batches ∧ activeBatchP pid hub b = true ∧ 0 < b.quantity := by
  have hb' := (fifoCursor_perm s pid hub).mem_iff.mp hb
  have := List.mem_filter.mp hb'
  refine ⟨this.1, ?_, ?_⟩
  · have := this.2
    simp only [Bool.and_eq_true, decide_eq_true_eq] at this
    exact this.1
  · have := this.2
    simp only [Bool.and_eq_true, decide_eq_true_eq] at this
    exact this.2

theorem fifoCursor_find? {s : DB} {pid hub : String}
    (hnd : (s.batches.map (·.oid)).Nodup) :
    ∀ b ∈ fifoCursor s pid hub, s.batches.find? (oidP b.oid) = some b :=
  fun b hb => find?_oid_of_nodup hnd (fifoCursor_mem hb).1

theorem fifoCursor_nodup {s : DB} {pid hub : String}
    (hnd : (s.batches.map (·.oid)).Nodup) :
    ((fifoCursor s pid hub).map (·.oid)).Nodup := by
  have hsub : ((s.batches.filter
      (fun b => activeBatchP pid hub b && decide (0 < b.quantity))).map (·.oid)).Sublist
      (s.batches.map (·.oid)) :=
    List.Sublist.map _ (List.filter_sublist _)
  exact (((fifoCursor_perm s pid hub).map (·.oid)).nodup_iff).mpr (hnd.sublist hsub)

theorem fifoCursor_sum {s : DB} {pid hub : String}
    (hnn : ∀ x ∈ s.batches, 0 ≤ x.quantity) :
    ((fifoCursor s pid hub).map (·.quantity)).sum = totalAvailable s pid hub := by
  have hperm := (fifoCursor_perm s pid hub).map (·.quantity)
  rw [hperm.sum_eq]
  have : ((s.batches.filter
      (fun b => activeBatchP pid hub b && decide (0 < b.quantity))).map (·.quantity)).sum =
      qtySum (fun b => activeBatchP pid hub b && decide (0 < b.quantity)) s.batches := rfl
  rw [this, qtySum_pos_filter hnn]
  rfl

/-- The success path of `dispatch_inventory`, with everything later claims
need: the trace covers the request exactly, the remaining quantity is the
prior total minus the request, system-wide product stock drops by the request,
the dispatch record is appended `In-Progress`, nothing else changes, and
quantities stay nonnegative. -/
theorem dispatch_inventory_ok (p : DispatchPayload) (now : Nat) (did : String)
    (genTxn : Nat → String) (s : DB)
    (hfrom : s.hubs.contains (normalizeId p.From_Hub_ID) = true)
    (hto : s.hubs.contains (normalizeId p.To_Hub_ID) = true)
    (hnd : (s.batches.map (·.oid)).Nodup)
    (hnn : ∀ x ∈ s.batches, 0 ≤ x.quantity)
    (hq0 : 0 ≤ p.Quantity)
    (hqle : p.Quantity ≤ totalAvailable s (normalizeId p.Product_ID) (normalizeId p.From_Hub_ID)) :
    ∃ s' out, dispatch_inventory p now did genTxn s = (s', Except.ok out) ∧
      out.dispatch_id = did ∧
      out.batch_consumption =
        (runConsume genTxn (normalizeId p.Product_ID) (normalizeId p.From_Hub_ID) (normalizeId p.To_Hub_ID) now
          (fifoCursor s (normalizeId p.Product_ID) (normalizeId p.From_Hub_ID)) p.Quantity 0 s).2 ∧
      traceSum out.batch_consumption = p.Quantity ∧
      out.remaining_quantity =
        totalAvailable s (normalizeId p.Product_ID) (normalizeId p.From_Hub_ID) - p.Quantity ∧
      totalAvailable s' (normalizeId p.Product_ID) (normalizeId p.From_Hub_ID) =
        totalAvailable s (normalizeId p.Product_ID) (normalizeId p.From_Hub_ID) - p.Quantity ∧
      sysTotal s' (normalizeId p.Product_ID) = sysTotal s (normalizeId p.Product_ID) - p.Quantity ∧
      s'.dispatches = s.dispatches ++
        [{ dispatch_id := did, product_id := (normalizeId p.Product_ID),
           from_hub_id := (normalizeId p.From_Hub_ID), to_hub_id := (normalizeId p.To_Hub_ID),
           quantity := p.Quantity, batch_consumption := out.batch_consumption,
           vehicle_assigned := "In-Progress", driver_assigned := "In-Progress",
           status := "In-Progress", timestamp := now, arrival_time := none }] ∧
      s'.drivers = s.drivers ∧ s'.vehicles = s.vehicles ∧ s'.hubs = s.hubs ∧
      (∀ x ∈ s'.batches, 0 ≤ x.quantity) := by
  have hfind := @fifoCursor_find? s (normalizeId p.Product_ID) (normalizeId p.From_Hub_ID) hnd
  have hcnd := @fifoCursor_nodup s (normalizeId p.Product_ID) (normalizeId p.From_Hub_ID) hnd
  have hpos : ∀ b ∈ fifoCursor s (normalizeId p.Product_ID) (normalizeId p.From_Hub_ID), 0 < b.quantity :=
    fun b hb => (fifoCursor_mem hb).2.2
  have hsum := @fifoCursor_sum s (normalizeId p.Product_ID) (normalizeId p.From_Hub_ID) hnn
  have htrace := runConsume_traceSum genTxn (normalizeId p.Product_ID) (normalizeId p.From_Hub_ID)
    (normalizeId p.To_Hub_ID) now (fifoCursor s (normalizeId p.Product_ID) (normalizeId p.From_Hub_ID))
    p.Quantity 0 s hq0 (by rw [hsum]; exact hqle) hpos
  have hproj := runConsume_proj genTxn (normalizeId p.Product_ID) (normalizeId p.From_Hub_ID)
    (normalizeId p.To_Hub_ID) now (fifoCursor s (normalizeId p.Product_ID) (normalizeId p.From_Hub_ID)) p.Quantity 0 s
  have hactive : ∀ b ∈ fifoCursor s (normalizeId p.Product_ID) (normalizeId p.From_Hub_ID),
      activeBatchP (normalizeId p.Product_ID) (normalizeId p.From_Hub_ID) b = true :=
    fun b hb => (fifoCursor_mem hb).2.1
  have havail := runConsume_qtySum genTxn (normalizeId p.Product_ID) (normalizeId p.From_Hub_ID)
    (normalizeId p.To_Hub_ID) now (activeBatchP (normalizeId p.Product_ID) (normalizeId p.From_Hub_ID))
    (fifoCursor s (normalizeId p.Product_ID) (normalizeId p.From_Hub_ID)) p.Quantity 0 s hfind hcnd hpos
    (by
      intro b hb take ht1 ht2
      rw [contrib_active_decResult (hactive b hb) ht2, if_pos (hactive b hb)])
  have hsys := runConsume_qtySum genTxn (normalizeId p.Product_ID) (normalizeId p.From_Hub_ID)
    (normalizeId p.To_Hub_ID) now (fun b => b.product_id == (normalizeId p.Product_ID))
    (fifoCursor s (normalizeId p.Product_ID) (normalizeId p.From_Hub_ID)) p.Quantity 0 s hfind hcnd hpos
    (by
      intro b hb take ht1 ht2
      have hpid : (b.product_id == (normalizeId p.Product_ID)) = true := by
        have := hactive b hb
        simp only [activeBatchP, Bool.and_eq_true] at this
        exact this.1.1
      rw [contrib_pid_decResult hpid, if_pos hpid])
  have hnneg := runConsume_nonneg genTxn (normalizeId p.Product_ID) (normalizeId p.From_Hub_ID)
    (normalizeId p.To_Hub_ID) now (fifoCursor s (normalizeId p.Product_ID) (normalizeId p.From_Hub_ID))
    p.Quantity 0 s hfind hcnd hnn
  unfold dispatch_inventory
  rw [if_pos (by simpa using hfrom), if_pos (by simpa using hto),
    if_neg (not_lt.mpr hqle)]
  refine ⟨_, _, rfl, rfl, rfl, htrace, ?_, ?_, ?_, ?_, ?_, ?_, ?_, ?_⟩
  · unfold totalAvailable
    dsimp only
    rw [havail, htrace]
  · unfold totalAvailable
    dsimp only
    rw [havail, htrace]
  · unfold sysTotal
    dsimp only
    rw [hsys, htrace]
  · dsimp only
    rw [hproj.2.2.1]
  · dsimp only
    exact hproj.2.2.2.1
  · dsimp only
    exact hproj.2.2.2.2
  · dsimp only
    exact hproj.1
  · dsimp only
    exact hnneg

theorem find?_append_some {p : α → Bool} {l l' : List α} {b : α}
    (h : l.find? p = some b) : (l ++ l').find? p = some b := by
  induction l with
  | nil => simp at h
  | cons x xs ih =>
      by_cases hx : p x = true
      · rw [List.find?_cons_of_pos _ hx] at h
        rw [List.cons_append, List.find?_cons_of_pos _ hx]
        exact h
      · rw [List.find?_cons_of_neg _ hx] at h
        rw [List.cons_append, List.find?_cons_of_neg _ hx]
        exact ih h

theorem find?_updateFirst_cases {p q : α → Bool} {f : α → α} {l : List α} {b : α}
    (hq : ∀ x, q (f x) = q x)
    (h : (updateFirst p f l).find? q = some b) :
    l.find? q = some b ∨ (∃ a, l.find? q = some a ∧ b = f a) := by
  induction l with
  | nil => simp [updateFirst] at h
  | cons x xs ih =>
      by_cases hp : p x = true
      · rw [updateFirst_cons_pos hp] at h
        by_cases hqx : q x = true
        · have hqf : q (f x) = true := (hq x).trans hqx
          rw [List.find?_cons_of_pos _ hqf] at h
          right
          refine ⟨x, List.find?_cons_of_pos _ hqx, ?_⟩
          injection h with h'
          rw [h']
        · have hqfx : q (f x) = false := by rw [hq x]; simpa using hqx
          rw [List.find?_cons_of_neg _ (by simp [hqfx])] at h
          left
          rw [List.find?_cons_of_neg _ hqx]
          exact h
      · have hp' : p x = false := by simpa using hp
        simp only [updateFirst, hp', Bool.false_eq_true, if_false] at h
        by_cases hqx : q x = true
        · rw [List.find?_cons_of_pos _ hqx] at h
          left
          rw [List.find?_cons_of_pos _ hqx]
          exact h
        · rw [List.find?_cons_of_neg _ hqx] at h
          rcases ih h with h1 | ⟨a, ha, rfl⟩
          · left
            rw [List.find?_cons_of_neg _ hqx]
            exact h1
          · right
            exact ⟨a, by rw [List.find?_cons_of_neg _ hqx]; exact ha, rfl⟩

theorem find?_isSome_updateFirst {p q : α → Bool} {f : α → α} {l : List α}
    (hq : ∀ x, q (f x) = q x) :
    ((updateFirst p f l).find? q).isSome = (l.find? q).isSome := by
  induction l with
  | nil => rfl
  | cons x xs ih =>
      by_cases hp : p x = true
      · rw [updateFirst_cons_pos hp]
        by_cases hqx : q x = true
        · rw [List.find?_cons_of_pos _ ((hq x).trans hqx), List.find?_cons_of_pos _ hqx]
          rfl
        · rw [List.find?_cons_of_neg _ (by rw [hq x]; simpa using hqx),
            List.find?_cons_of_neg _ hqx]
      · have hp' : p x = false := by simpa using hp
        simp only [updateFirst, hp', Bool.false_eq_true, if_false]
        by_cases hqx : q x = true
        · rw [List.find?_cons_of_pos _ hqx, List.find?_cons_of_pos _ hqx]
        · rw [List.find?_cons_of_neg _ hqx, List.find?_cons_of_neg _ hqx]
          exact ih

/-- A batch-list transition that is the identity, a first-match rewrite with a
status- and oid-preserving function, or an append, never changes the status of
a batch found by `_id`. -/
theorem status_preserved_of_cases {l l' : List Batch}
    (hc : l' = l ∨
      (∃ (q : Batch → Bool) (f : Batch → Batch),
        l' = updateFirst q f l ∧ (∀ x, (f x).status = x.status ∧ (f x).oid = x.oid)) ∨
      (∃ nb : Batch, l' = l ++ [nb]))
    {o : Nat} {b_old b_new : Batch}
    (hold : l.find? (oidP o) = some b_old)
    (hnew : l'.find? (oidP o) = some b_new) :
    b_new.status = b_old.status := by
  rcases hc with rfl | ⟨q, f, rfl, hf⟩ | ⟨nb, rfl⟩
  · rw [hold] at hnew
    injection hnew with h
    rw [h]
  · rcases find?_updateFirst_cases (fun x => by simp [oidP, (hf x).2]) hnew with h1 | ⟨a, ha, rfl⟩
    · rw [hold] at h1
      injection h1 with h
      rw [h]
    · rw [hold] at ha
      injection ha with h
      rw [(hf a).1, ← h]
  · rw [find?_append_some hold] at hnew
    injection hnew with h
    rw [h]

theorem ensureProductMaster_batches (p : RegisterPayload) (s : DB) :
    (ensureProductMaster p s).batches = s.batches := by
  unfold ensureProductMaster
  dsimp only
  repeat' split
  all_goals rfl

theorem registerMerge_status_oid (q : Int) (v u : ℚ) (x : Batch) :
    ((registerMerge q v u x).status = x.status ∧ (registerMerge q v u x).oid = x.oid) :=
  ⟨rfl, rfl⟩

theorem updateMerge_status_oid (q : Int) (v u : Option ℚ) (x : Batch) :
    ((updateMerge q v u x).status = x.status ∧ (updateMerge q v u x).oid = x.oid) :=
  ⟨rfl, rfl⟩

/-- The batch collection after `register_inventory` is unchanged, rewritten by
a status/oid-preserving merge at the first matching document, or extended with
one new document. -/
theorem register_inventory_batches_cases (p : RegisterPayload) (now : Nat)
    (genBatchNo txnId : String) (s : DB) :
    (register_inventory p now genBatchNo txnId s).1.batches = s.batches ∨
    (∃ (q : Batch → Bool) (f : Batch → Batch),
      (register_inventory p now genBatchNo txnId s).1.batches = updateFirst q f s.batches ∧
      (∀ x, (f x).status = x.status ∧ (f x).oid = x.oid)) ∨
    (∃ nb : Batch,
      (register_inventory p now genBatchNo txnId s).1.batches = s.batches ++ [nb]) := by
  unfold register_inventory
  by_cases hhub : s.hubs.contains (normalizeId p.Hub_ID) = true
  · rw [if_pos (by simpa using hhub)]
    dsimp only
    split
    · refine Or.inr (Or.inl ⟨stockInFindP (normalizeId p.Product_ID) (normalizeId p.Hub_ID)
          (match p.Batch_No with
            | some b => if (normalizeId b) == "" then none else some (normalizeId b)
            | none => none) (some p.Expiry_Date),
        registerMerge p.Quantity p.Value
          (if p.Quantity > 0 then p.Value / (p.Quantity : ℚ) else 0),
        ?_, fun x => registerMerge_status_oid _ _ _ x⟩)
      rw [← ensureProductMaster_batches p s]
    · rw [← ensureProductMaster_batches p s]
      exact Or.inr (Or.inr ⟨_, rfl⟩)
  · rw [if_neg (by simpa using hhub)]
    exact Or.inl rfl

theorem upsert_batches_cases {FP : Option (Batch → Bool)} {merge : Batch → Batch} {nb : Batch}
    {l : List Batch}
    (hm : ∀ x, (merge x).status = x.status ∧ (merge x).oid = x.oid) :
    (upsertByFind FP merge nb l).1 = l ∨
    (∃ (q : Batch → Bool) (f : Batch → Batch),
      (upsertByFind FP merge nb l).1 = updateFirst q f l ∧
      (∀ x, (f x).status = x.status ∧ (f x).oid = x.oid)) ∨
    (∃ nb' : Batch, (upsertByFind FP merge nb l).1 = l ++ [nb']) := by
  unfold upsertByFind
  cases FP with
  | none => exact Or.inr (Or.inr ⟨nb, rfl⟩)
  | some pr =>
      rcases h : l.find? pr with _ | b
      · simp only [h]
        exact Or.inr (Or.inr ⟨nb, rfl⟩)
      · simp only [h]
        exact Or.inr (Or.inl ⟨pr, merge, rfl, hm⟩)

/-- The batch collection after `update_inventory` is unchanged, rewritten by a
status/oid-preserving merge at the first matching document, or extended with
one new document. -/
theorem update_inventory_batches_cases (p : UpdatePayload) (now : Nat)
    (genBatchNo txnId : String) (s : DB) :
    (update_inventory p now genBatchNo txnId s).1.batches = s.batches ∨
    (∃ (q : Batch → Bool) (f : Batch → Batch),
      (update_inventory p now genBatchNo txnId s).1.batches = updateFirst q f s.batches ∧
      (∀ x, (f x).status = x.status ∧ (f x).oid = x.oid)) ∨
    (∃ nb : Batch,
      (update_inventory p now genBatchNo txnId s).1.batches = s.batches ++ [nb]) := by
  unfold update_inventory
  have hmb : (updateMasterFields p (normalizeId p.Product_ID) s).batches = s.batches := rfl
  by_cases hhub : s.hubs.contains (normalizeId p.Hub_ID) = true
  · rw [if_pos (by simpa using hhub)]
    by_cases hprod : (s.products.find? (fun m => m.product_id == (normalizeId p.Product_ID))).isSome
    · rw [if_pos hprod]
      dsimp only
      cases p.Quantity with
      | none => exact Or.inl hmb
      | some q =>
          dsimp only
          rw [hmb]
          exact upsert_batches_cases (fun x => updateMerge_status_oid _ _ _ x)
    · rw [if_neg hprod]
      exact Or.inl rfl
  · rw [if_neg (by simpa using hhub)]
    exact Or.inl rfl

/-! Lemmas about the receiving reconciler. -/

theorem creditEntry_proj {pid to_hub from_hub did : String} {now : Nat} {txnId : String}
    {e : ConsumptionEntry} {s : DB} :
    (creditEntry pid to_hub from_hub did now txnId e s).dispatches = s.dispatches ∧
    (creditEntry pid to_hub from_hub did now txnId e s).drivers = s.drivers ∧
    (creditEntry pid to_hub from_hub did now txnId e s).vehicles = s.vehicles ∧
    (creditEntry pid to_hub from_hub did now txnId e s).hubs = s.hubs ∧
    (creditEntry pid to_hub from_hub did now txnId e s).products = s.products := by
  unfold creditEntry
  dsimp only
  split <;> exact ⟨rfl, rfl, rfl, rfl, rfl⟩

theorem creditAll_proj {pid to_hub from_hub did : String} {now : Nat} {genTxn : Nat → String} :
    ∀ (trace : List ConsumptionEntry) (k : Nat) (s : DB),
    (creditAll pid to_hub from_hub did now genTxn trace k s).dispatches = s.dispatches ∧
    (creditAll pid to_hub from_hub did now genTxn trace k s).drivers = s.drivers ∧
    (creditAll pid to_hub from_hub did now genTxn trace k s).vehicles = s.vehicles ∧
    (creditAll pid to_hub from_hub did now genTxn trace k s).hubs = s.hubs ∧
    (creditAll pid to_hub from_hub did now genTxn trace k s).products = s.products := by
  intro trace
  induction trace with
  | nil => intro k s; exact ⟨rfl, rfl, rfl, rfl, rfl⟩
  | cons e rest ih =>
      intro k s
      have h1 := ih (k + 1) (creditEntry pid to_hub from_hub did now (genTxn k) e s)
      have h2 := @creditEntry_proj pid to_hub from_hub did now (genTxn k) e s
      exact ⟨h1.1.trans h2.1, h1.2.1.trans h2.2.1, h1.2.2.1.trans h2.2.2.1,
        h1.2.2.2.1.trans h2.2.2.2.1, h1.2.2.2.2.trans h2.2.2.2.2⟩

theorem creditEntry_qtySum {p : Batch → Bool} {pid to_hub from_hub did : String} {now : Nat}
    {txnId : String} {e : ConsumptionEntry} {s : DB}
    (hpe : ∀ x, destP pid to_hub e.batch_no x = true → p x = true)
    (hpf : ∀ x, p (creditInc e.qty x) = p x)
    (hpn : ∀ oid, p (creditNew pid to_hub e.batch_no e.qty oid) = true) :
    qtySum p (creditEntry pid to_hub from_hub did now txnId e s).batches =
      qtySum p s.batches + e.qty := by
  unfold creditEntry
  dsimp only
  split
  · rename_i b heq
    have hb : p b = true := hpe b (List.find?_some heq)
    have hfb : p (creditInc e.qty b) = true := (hpf b).trans hb
    rw [qtySum_updateFirst heq, if_pos hfb, if_pos hb]
    dsimp only [creditInc]
    omega
  · rw [qtySum_append, qtySum_cons, if_pos (hpn _)]
    dsimp only [creditNew, qtySum, List.filter_nil, List.map_nil, List.sum_nil]
    omega

theorem creditAll_qtySum {p : Batch → Bool} {pid to_hub from_hub did : String} {now : Nat}
    {genTxn : Nat → String}
    (hpe : ∀ bno x, destP pid to_hub bno x = true → p x = true)
    (hpf : ∀ q x, p (creditInc q x) = p x)
    (hpn : ∀ bno q oid, p (creditNew pid to_hub bno q oid) = true) :
    ∀ (trace : List ConsumptionEntry) (k : Nat) (s : DB),
    qtySum p (creditAll pid to_hub from_hub did now genTxn trace k s).batches =
      qtySum p s.batches + traceSum trace := by
  intro trace
  induction trace with
  | nil => intro k s; simp [creditAll, traceSum]
  | cons e rest ih =>
      intro k s
      rw [show creditAll pid to_hub from_hub did now genTxn (e :: rest) k s =
        creditAll pid to_hub from_hub did now genTxn rest (k + 1)
          (creditEntry pid to_hub from_hub did now (genTxn k) e s) from rfl]
      rw [ih (k + 1) _, creditEntry_qtySum (hpe e.batch_no) (hpf e.qty)
        (fun o => hpn e.batch_no e.qty o), traceSum_cons]
      ring

theorem destP_creditInc {pid hub bno : String} {q : Int} (x : Batch) :
    destP pid hub bno (creditInc q x) = destP pid hub bno x := rfl

theorem creditEntry_exists {pid to_hub from_hub did : String} {now : Nat} {txnId : String}
    {e : ConsumptionEntry} {s : DB} :
    ((creditEntry pid to_hub from_hub did now txnId e s).batches.find?
      (destP pid to_hub e.batch_no)).isSome = true := by
  unfold creditEntry
  dsimp only
  split
  · rename_i b heq
    rw [find?_isSome_updateFirst (fun x => destP_creditInc x), heq]
    rfl
  · rename_i heq
    rw [find?_append_left_neg (fun x hx => by
      have := List.find?_eq_none.mp heq
      simpa using this x hx)]
    rw [List.find?_cons_of_pos _ (by simp [destP, creditNew])]
    rfl

theorem creditEntry_exists_mono {pid to_hub from_hub did pid' hub' bno' : String} {now : Nat}
    {txnId : String} {e : ConsumptionEntry} {s : DB}
    (h : (s.batches.find? (destP pid' hub' bno')).isSome = true) :
    ((creditEntry pid to_hub from_hub did now txnId e s).batches.find?
      (destP pid' hub' bno')).isSome = true := by
  unfold creditEntry
  dsimp only
  split
  · show ((updateFirst (destP pid to_hub e.batch_no) (creditInc e.qty) s.batches).find?
        (destP pid' hub' bno')).isSome = true
    rw [find?_isSome_updateFirst (fun x => destP_creditInc x)]
    exact h
  · show ((s.batches ++ [creditNew pid to_hub e.batch_no e.qty (freshOid s.batches)]).find?
        (destP pid' hub' bno')).isSome = true
    obtain ⟨b, hb⟩ := Option.isSome_iff_exists.mp h
    rw [find?_append_some hb]
    rfl

theorem creditAll_exists_mono {pid to_hub from_hub did pid' hub' bno' : String} {now : Nat}
    {genTxn : Nat → String} :
    ∀ (trace : List ConsumptionEntry) (k : Nat) (s : DB),
    (s.batches.find? (destP pid' hub' bno')).isSome = true →
    ((creditAll pid to_hub from_hub did now genTxn trace k s).batches.find?
      (destP pid' hub' bno')).isSome = true := by
  intro trace
  induction trace with
  | nil => intro k s h; exact h
  | cons e rest ih =>
      intro k s h
      exact ih (k + 1) _ (creditEntry_exists_mono h)

theorem creditAll_exists {pid to_hub from_hub did : String} {now : Nat}
    {genTxn : Nat → String} :
    ∀ (trace : List ConsumptionEntry) (k : Nat) (s : DB),
    ∀ e ∈ trace,
    ((creditAll pid to_hub from_hub did now genTxn trace k s).batches.find?
      (destP pid to_hub e.batch_no)).isSome = true := by
  intro trace
  induction trace with
  | nil => intro k s e he; simp at he
  | cons e' rest ih =>
      intro k s e he
      rcases List.mem_cons.mp he with rfl | he'
      · exact creditAll_exists_mono rest (k + 1) _ creditEntry_exists
      · exact ih (k + 1) _ e he'

/-! Lemmas about `mark_dispatch_received_service`. -/

theorem mark_received_notfound {did : String} {now : Nat} {genTxn : Nat → String} {s : DB}
    (h : s.dispatches.find? (dispP did) = none) :
    mark_dispatch_received_service did now genTxn s = (s, .error .dispatchNotFound) := by
  unfold mark_dispatch_received_service
  rw [h]

theorem mark_received_invalid {did : String} {now : Nat} {genTxn : Nat → String} {s : DB}
    {d : DispatchDoc} (h : s.dispatches.find? (dispP did) = some d)
    (hst : ¬ d.status = "In-Transit") :
    mark_dispatch_received_service did now genTxn s =
      (s, .error (.invalidState d.status)) := by
  unfold mark_dispatch_received_service
  rw [h]
  dsimp only
  rw [if_neg (by simpa using hst)]

theorem mark_received_eq {did : String} {now : Nat} {genTxn : Nat → String} {s : DB}
    {d : DispatchDoc} (h : s.dispatches.find? (dispP did) = some d)
    (hst : d.status = "In-Transit") :
    mark_dispatch_received_service did now genTxn s =
      (completeDispatch did now (resetVehicle d.vehicle_assigned
        (resetDriver d.driver_assigned
          (creditAll d.product_id d.to_hub_id d.from_hub_id did now genTxn
            d.batch_consumption 0 s))),
       .ok { dispatch_id := did, status := "Completed", hub := d.to_hub_id,
             arrival_time := now }) := by
  unfold mark_dispatch_received_service
  rw [h]
  dsimp only
  rw [if_pos (by simp [hst])]

theorem mark_received_batches {did : String} {now : Nat} {genTxn : Nat → String} {s : DB}
    {d : DispatchDoc} (h : s.dispatches.find? (dispP did) = some d)
    (hst : d.status = "In-Transit") :
    (mark_dispatch_received_service did now genTxn s).1.batches =
      (creditAll d.product_id d.to_hub_id d.from_hub_id did now genTxn
        d.batch_consumption 0 s).batches := by
  rw [mark_received_eq h hst]
  rfl

theorem mark_received_dispatches {did : String} {now : Nat} {genTxn : Nat → String} {s : DB}
    {d : DispatchDoc} (h : s.dispatches.find? (dispP did) = some d)
    (hst : d.status = "In-Transit") :
    (mark_dispatch_received_service did now genTxn s).1.dispatches =
      updateFirst (dispP did)
        (fun x => { x with status := "Completed", arrival_time := some now })
        s.dispatches := by
  rw [mark_received_eq h hst]
  show updateFirst (dispP did) _
      (creditAll d.product_id d.to_hub_id d.from_hub_id did now genTxn
        d.batch_consumption 0 s).dispatches = _
  rw [(creditAll_proj d.batch_consumption 0 s).1]

/-- Re-invoking `mark_dispatch_received_service` on a dispatch it has just
completed fails with `InvalidState` and leaves the state untouched. -/
theorem mark_received_twice {did : String} {now now2 : Nat} {genTxn genTxn2 : Nat → String}
    {s : DB} {d : DispatchDoc} (h : s.dispatches.find? (dispP did) = some d)
    (hst : d.status = "In-Transit") :
    mark_dispatch_received_service did now2 genTxn2
        (mark_dispatch_received_service did now genTxn s).1 =
      ((mark_dispatch_received_service did now genTxn s).1,
       .error (.invalidState "Completed")) := by
  have hd : (mark_dispatch_received_service did now genTxn s).1.dispatches.find? (dispP did) =
      some { d with status := "Completed", arrival_time := some now } := by
    rw [mark_received_dispatches h hst,
      find?_updateFirst_self (fun x hx => by simpa [dispP] using hx), h]
    rfl
  exact mark_received_invalid hd (by simp)

/-! Lemmas about `dispatch_vehicle_service` (assignResources). -/

theorem assign_no_dispatch {s : DB}
    (h : s.dispatches.find? (fun d => d.status == "In-Progress") = none) :
    dispatch_vehicle_service s = (s, .noDispatch) := by
  unfold dispatch_vehicle_service
  rw [h]

theorem assign_no_driver {s : DB} {dsp : DispatchDoc}
    (h1 : s.dispatches.find? (fun d => d.status == "In-Progress") = some dsp)
    (h2 : s.drivers.find? (fun d => d.status == "active") = none) :
    dispatch_vehicle_service s = (s, .noDriver) := by
  unfold dispatch_vehicle_service
  rw [h1, h2]

theorem assign_no_vehicle {s : DB} {dsp : DispatchDoc} {drv : Driver}
    (h1 : s.dispatches.find? (fun d => d.status == "In-Progress") = some dsp)
    (h2 : s.drivers.find? (fun d => d.status == "active") = some drv)
    (h3 : s.vehicles.find? (fun v => v.status == "Available") = none) :
    dispatch_vehicle_service s = (s, .noVehicle) := by
  unfold dispatch_vehicle_service
  rw [h1, h2, h3]

theorem assign_success_eq {s : DB} {dsp : DispatchDoc} {drv : Driver} {veh : Vehicle}
    (h1 : s.dispatches.find? (fun d => d.status == "In-Progress") = some dsp)
    (h2 : s.drivers.find? (fun d => d.status == "active") = some drv)
    (h3 : s.vehicles.find? (fun v => v.status == "Available") = some veh) :
    dispatch_vehicle_service s =
      ({ s with
          drivers := updateFirst (fun d => d.driver_id == drv.driver_id) driverAssignedF s.drivers
        , vehicles := updateFirst (fun v => v.vehicle_id == veh.vehicle_id) vehicleTransitF s.vehicles
        , dispatches := updateFirst (fun d => d.status == "In-Progress") (assignSet drv.driver_id veh.vehicle_id) s.dispatches },
       .assigned drv.driver_id veh.vehicle_id dsp.dispatch_id) := by
  unfold dispatch_vehicle_service
  rw [h1, h2, h3]

/-- After the first `q`-match of a key-unique list is rewritten so that it no
longer satisfies `q`, a fresh `q`-search cannot return an element with the
same key. -/
theorem find?_after_updateFirst_unique {α : Type} {key : α → String} {q : α → Bool}
    {f : α → α} {l : List α} {a y : α}
    (hnd : (l.map key).Nodup)
    (hqfa : q (f a) = false)
    (hfind : l.find? q = some a)
    (hfind2 : (updateFirst (fun x => key x == key a) f l).find? q = some y) :
    key y ≠ key a := by
  obtain ⟨l₁, l₂, rfl, hl₁, hqa⟩ := find?_decomp hfind
  have hkey : (l₁.map key ++ key a :: l₂.map key).Nodup := by
    simpa using hnd
  have hknotin : key a ∉ l₁.map key ++ l₂.map key := by
    have := List.nodup_middle.mp hkey
    exact (List.nodup_cons.mp this).1
  have hP₁ : ∀ x ∈ l₁, (key x == key a) = false := by
    intro x hx
    refine beq_eq_false_iff_ne.mpr ?_
    intro hc
    exact hknotin (List.mem_append.mpr (Or.inl (hc ▸ List.mem_map.mpr ⟨x, hx, rfl⟩)))
  have hup : updateFirst (fun x => key x == key a) f (l₁ ++ a :: l₂) = l₁ ++ f a :: l₂ :=
    updateFirst_eq_of_find? rfl hP₁ (by simp)
  rw [hup, find?_append_left_neg hl₁, List.find?_cons_of_neg _ (by simp [hqfa])] at hfind2
  have hmem : y ∈ l₂ := List.mem_of_find?_eq_some hfind2
  intro hc
  exact hknotin (List.mem_append.mpr (Or.inr (hc ▸ List.mem_map.mpr ⟨y, hmem, rfl⟩)))

/-- Serialized executions of assignResources never hand the same driver or the
same vehicle to two successive successful allocations. -/
theorem assign_sequential_distinct {s : DB}
    (hdn : (s.drivers.map (·.driver_id)).Nodup)
    (hvn : (s.vehicles.map (·.vehicle_id)).Nodup)
    {s1 s2 : DB} {d1 v1 i1 d2 v2 i2 : String}
    (h1 : dispatch_vehicle_service s = (s1, .assigned d1 v1 i1))
    (h2 : dispatch_vehicle_service s1 = (s2, .assigned d2 v2 i2)) :
    d1 ≠ d2 ∧ v1 ≠ v2 := by
  rcases hdsp : s.dispatches.find? (fun d => d.status == "In-Progress") with _ | dsp
  · rw [assign_no_dispatch hdsp] at h1
    exact absurd (congrArg Prod.snd h1) (by simp)
  rcases hdrv : s.drivers.find? (fun d => d.status == "active") with _ | drv
  · rw [assign_no_driver hdsp hdrv] at h1
    exact absurd (congrArg Prod.snd h1) (by simp)
  rcases hveh : s.vehicles.find? (fun v => v.status == "Available") with _ | veh
  · rw [assign_no_vehicle hdsp hdrv hveh] at h1
    exact absurd (congrArg Prod.snd h1) (by simp)
  rw [assign_success_eq hdsp hdrv hveh] at h1
  have hs1 : s1 = { s with
      drivers := updateFirst (fun d => d.driver_id == drv.driver_id) driverAssignedF s.drivers
    , vehicles := updateFirst (fun v => v.vehicle_id == veh.vehicle_id) vehicleTransitF s.vehicles
    , dispatches := updateFirst (fun d => d.status == "In-Progress") (assignSet drv.driver_id veh.vehicle_id) s.dispatches } :=
    (congrArg Prod.fst h1).symm
  have hres := congrArg Prod.snd h1
  simp only [AssignResult.assigned.injEq] at hres
  obtain ⟨hd1, hv1, _⟩ := hres
  rcases hdsp2 : s1.dispatches.find? (fun d => d.status == "In-Progress") with _ | dsp2
  · rw [assign_no_dispatch hdsp2] at h2
    exact absurd (congrArg Prod.snd h2) (by simp)
  rcases hdrv2 : s1.drivers.find? (fun d => d.status == "active") with _ | drv2
  · rw [assign_no_driver hdsp2 hdrv2] at h2
    exact absurd (congrArg Prod.snd h2) (by simp)
  rcases hveh2 : s1.vehicles.find? (fun v => v.status == "Available") with _ | veh2
  · rw [assign_no_vehicle hdsp2 hdrv2 hveh2] at h2
    exact absurd (congrArg Prod.snd h2) (by simp)
  rw [assign_success_eq hdsp2 hdrv2 hveh2] at h2
  have hres2 := congrArg Prod.snd h2
  simp only [AssignResult.assigned.injEq] at hres2
  obtain ⟨hd2, hv2, _⟩ := hres2
  constructor
  · rw [← hd1, ← hd2]
    have hdrv2' : (updateFirst (fun d => d.driver_id == drv.driver_id) driverAssignedF
        s.drivers).find? (fun d => d.status == "active") = some drv2 := by
      rw [← show s1.drivers = updateFirst (fun d => d.driver_id == drv.driver_id)
          driverAssignedF s.drivers from by rw [hs1]]
      exact hdrv2
    intro hc
    exact @find?_after_updateFirst_unique Driver (fun d => d.driver_id) _ _ _ _ _
      hdn (by rfl) hdrv hdrv2' hc.symm
  · rw [← hv1, ← hv2]
    have hveh2' : (updateFirst (fun v => v.vehicle_id == veh.vehicle_id) vehicleTransitF
        s.vehicles).find? (fun v => v.status == "Available") = some veh2 := by
      rw [← show s1.vehicles = updateFirst (fun v => v.vehicle_id == veh.vehicle_id)
          vehicleTransitF s.vehicles from by rw [hs1]]
      exact hveh2
    intro hc
    exact @find?_after_updateFirst_unique Vehicle (fun v => v.vehicle_id) _ _ _ _ _
      hvn (by rfl) hveh hveh2' hc.symm

/-- The full transfer pipeline on a quiescent state: `Dispatch`, then
`assignResources`, then `MarkReceived`. System-wide product stock is restored
and each consumed batch number reappears at the destination hub. -/
theorem round_trip_spec (p : DispatchPayload) (now1 now2 : Nat) (did : String)
    (genTxn1 genTxn2 : Nat → String) (s : DB)
    (hfrom : s.hubs.contains (normalizeId p.From_Hub_ID) = true)
    (hto : s.hubs.contains (normalizeId p.To_Hub_ID) = true)
    (hnd : (s.batches.map (·.oid)).Nodup)
    (hnn : ∀ x ∈ s.batches, 0 ≤ x.quantity)
    (hq0 : 0 ≤ p.Quantity)
    (hqle : p.Quantity ≤ totalAvailable s (normalizeId p.Product_ID) (normalizeId p.From_Hub_ID))
    (hnoip : ∀ d ∈ s.dispatches, (d.status == "In-Progress") = false)
    (hdid : ∀ d ∈ s.dispatches, dispP did d = false)
    {drv : Driver} (hdrv : s.drivers.find? (fun d => d.status == "active") = some drv)
    {veh : Vehicle} (hveh : s.vehicles.find? (fun v => v.status == "Available") = some veh) :
    ∃ s1 out s3 r3,
      dispatch_inventory p now1 did genTxn1 s = (s1, .ok out) ∧
      mark_dispatch_received_service did now2 genTxn2 (dispatch_vehicle_service s1).1 =
        (s3, .ok r3) ∧
      sysTotal s3 (normalizeId p.Product_ID) = sysTotal s (normalizeId p.Product_ID) ∧
      (∀ e ∈ out.batch_consumption,
        (s3.batches.find? (destP (normalizeId p.Product_ID) (normalizeId p.To_Hub_ID) e.batch_no)).isSome =
          true) ∧
      traceSum out.batch_consumption = p.Quantity := by
  obtain ⟨s1, out, heq, hid, _, htr, hrem, hta, hsys1, hdisp1, hdrv1, hveh1, hhub1, hnn1⟩ :=
    dispatch_inventory_ok p now1 did genTxn1 s hfrom hto hnd hnn hq0 hqle
  set D : DispatchDoc :=
    { dispatch_id := did, product_id := (normalizeId p.Product_ID),
      from_hub_id := (normalizeId p.From_Hub_ID), to_hub_id := (normalizeId p.To_Hub_ID),
      quantity := p.Quantity, batch_consumption := out.batch_consumption,
      vehicle_assigned := "In-Progress", driver_assigned := "In-Progress",
      status := "In-Progress", timestamp := now1, arrival_time := none } with hD
  have hfd : s1.dispatches.find? (fun d => d.status == "In-Progress") = some D := by
    rw [hdisp1, find?_append_left_neg hnoip, List.find?_cons_of_pos _ (by simp [hD])]
  have hfdrv : s1.drivers.find? (fun d => d.status == "active") = some drv := by
    rw [hdrv1]; exact hdrv
  have hfveh : s1.vehicles.find? (fun v => v.status == "Available") = some veh := by
    rw [hveh1]; exact hveh
  have hassign := assign_success_eq hfd hfdrv hfveh
  set s2 : DB := { s1 with
      drivers := updateFirst (fun d => d.driver_id == drv.driver_id) driverAssignedF s1.drivers
    , vehicles := updateFirst (fun v => v.vehicle_id == veh.vehicle_id) vehicleTransitF s1.vehicles
    , dispatches := updateFirst (fun d => d.status == "In-Progress") (assignSet drv.driver_id veh.vehicle_id) s1.dispatches } with hs2
  have hs2fst : (dispatch_vehicle_service s1).1 = s2 := by rw [hassign]
  set D' : DispatchDoc := assignSet drv.driver_id veh.vehicle_id D with hD'
  have hs2disp : s2.dispatches = s.dispatches ++ [D'] := by
    rw [hs2]
    show updateFirst _ _ s1.dispatches = _
    rw [hdisp1, updateFirst_append_left hnoip, updateFirst_cons_pos (by simp [hD])]
  have hfd2 : s2.dispatches.find? (dispP did) = some D' := by
    rw [hs2disp, find?_append_left_neg hdid, List.find?_cons_of_pos _ (by
      rw [hD', hD]
      simp [dispP, assignSet])]
  have hstD' : D'.status = "In-Transit" := rfl
  have hmark := @mark_received_eq did now2 genTxn2 s2 D' hfd2 hstD'
  refine ⟨s1, out, _, _, heq, by rw [hs2fst, hmark], ?_, ?_, htr⟩
  · have hbatches : (completeDispatch did now2 (resetVehicle D'.vehicle_assigned
        (resetDriver D'.driver_assigned
          (creditAll D'.product_id D'.to_hub_id D'.from_hub_id did now2 genTxn2
            D'.batch_consumption 0 s2)))).batches =
        (creditAll D'.product_id D'.to_hub_id D'.from_hub_id did now2 genTxn2
          D'.batch_consumption 0 s2).batches := rfl
    show sysTotal _ _ = _
    unfold sysTotal
    rw [hbatches]
    have hcred := @creditAll_qtySum (fun b => b.product_id == (normalizeId p.Product_ID))
      D'.product_id D'.to_hub_id D'.from_hub_id did now2 genTxn2
      (fun bno x hx => by
        have : x.product_id == D'.product_id := by
          simp only [destP, Bool.and_eq_true] at hx
          exact hx.1.1
        simpa [hD', hD, assignSet] using this)
      (fun q x => rfl)
      (fun bno q o => by simp [creditNew, hD', hD, assignSet])
      D'.batch_consumption 0 s2
    rw [hcred]
    have hs2b : s2.batches = s1.batches := rfl
    have htrD : traceSum D'.batch_consumption = p.Quantity := by
      rw [show D'.batch_consumption = out.batch_consumption from rfl]
      exact htr
    rw [htrD]
    show qtySum _ s2.batches + _ = _
    rw [hs2b]
    have hq1 : qtySum (fun b => b.product_id == (normalizeId p.Product_ID)) s1.batches =
        qtySum (fun b => b.product_id == (normalizeId p.Product_ID)) s.batches - p.Quantity := hsys1
    rw [hq1]
    ring
  · intro e he
    have hbatches : (completeDispatch did now2 (resetVehicle D'.vehicle_assigned
        (resetDriver D'.driver_assigned
          (creditAll D'.product_id D'.to_hub_id D'.from_hub_id did now2 genTxn2
            D'.batch_consumption 0 s2)))).batches =
        (creditAll D'.product_id D'.to_hub_id D'.from_hub_id did now2 genTxn2
          D'.batch_consumption 0 s2).batches := rfl
    show ((_ : DB).batches.find? _).isSome = true
    rw [hbatches]
    have he' : e ∈ D'.batch_consumption := he
    have := @creditAll_exists D'.product_id D'.to_hub_id D'.from_hub_id did now2 genTxn2
      D'.batch_consumption 0 s2 e he'
    simpa [hD', hD, assignSet] using this

/-! Register-inventory step lemmas. -/

theorem ensureProductMaster_hubs (p : RegisterPayload) (s : DB) :
    (ensureProductMaster p s).hubs = s.hubs := by
  unfold ensureProductMaster
  dsimp only
  repeat' split
  all_goals rfl

theorem register_inventory_hubs (p : RegisterPayload) (now : Nat) (gbn txid : String)
    (s : DB) : (register_inventory p now gbn txid s).1.hubs = s.hubs := by
  unfold register_inventory
  by_cases hhub : s.hubs.contains (normalizeId p.Hub_ID) = true
  · rw [if_pos (by simpa using hhub)]
    dsimp only
    split
    · exact ensureProductMaster_hubs p s
    · exact ensureProductMaster_hubs p s
  · rw [if_neg (by simpa using hhub)]

/-- A call with no explicit batch number: the payload built from
`RegisterInventory`'s required fields. -/
def regPayload (hub pid pname cat : String) (expiry : Nat) (q : Int) (v : ℚ) :
    RegisterPayload :=
  { Hub_ID := hub, Product_ID := pid, Product_Name := pname, Quantity := q, Value := v,
    Selling_Price := 0, Category := cat, Product_Description := none, Expiry_Date := expiry,
    Brand := none, Batch_No := none, Purchase_Ref := none }

theorem register_regPayload_batches (hub pid pname cat : String) (expiry : Nat) (q : Int)
    (v : ℚ) (now : Nat) (gbn txid : String) (s : DB)
    (hhub : s.hubs.contains (normalizeId hub) = true) (hq : 0 < q) :
    (register_inventory (regPayload hub pid pname cat expiry q v) now gbn txid s).1.batches =
      (match s.batches.find? (stockInFindP (normalizeId pid) (normalizeId hub) none (some expiry)) with
       | some _ => updateFirst (stockInFindP (normalizeId pid) (normalizeId hub) none (some expiry))
           (registerMerge q v (v / (q : ℚ))) s.batches
       | none => s.batches ++ [mkBatchDoc (normalizeId pid) (normalizeId hub) gbn q (some expiry) v (v / (q : ℚ))
           now (freshOid s.batches)]) := by
  unfold register_inventory
  rw [if_pos (by simpa using hhub)]
  dsimp only [regPayload]
  rw [ensureProductMaster_batches]
  rw [if_pos (by exact_mod_cast hq : q > 0)]
  cases hf : s.batches.find? (stockInFindP (normalizeId pid) (normalizeId hub) none (some expiry)) with
  | some b => rfl
  | none => rfl

theorem register_bno_merge (p : RegisterPayload) (now : Nat) (gbn txid : String) (s : DB)
    (hhub : s.hubs.contains (normalizeId p.Hub_ID) = true) {bno : String}
    (hb : p.Batch_No = some bno) (hbne : ((normalizeId bno) == "") = false)
    {b : Batch}
    (hfound : s.batches.find? (stockInFindP (normalizeId p.Product_ID) (normalizeId p.Hub_ID) (some (normalizeId bno))
      (some p.Expiry_Date)) = some b) :
    (register_inventory p now gbn txid s).1.batches =
      updateFirst (stockInFindP (normalizeId p.Product_ID) (normalizeId p.Hub_ID) (some (normalizeId bno))
        (some p.Expiry_Date))
        (registerMerge p.Quantity p.Value
          (if p.Quantity > 0 then p.Value / (p.Quantity : ℚ) else 0))
        s.batches := by
  unfold register_inventory
  rw [if_pos (by simpa using hhub)]
  dsimp only
  rw [hb]
  dsimp only
  rw [if_neg (by simp [hbne])]
  rw [ensureProductMaster_batches, hfound]

/-! A sequence of `RegisterIncoming` calls on one (product, hub, expiry). -/

structure RegCall where
  q : Int
  v : ℚ
  now : Nat
  genBatchNo : String
  txnId : String

def foldRegister (hub pid pname cat : String) (expiry : Nat) : List RegCall → DB → DB
  | [], s => s
  | c :: rest, s =>
      foldRegister hub pid pname cat expiry rest
        (register_inventory (regPayload hub pid pname cat expiry c.q c.v) c.now
          c.genBatchNo c.txnId s).1

theorem registerMerge_fields (q : Int) (v u : ℚ) (x : Batch) :
    (registerMerge q v u x).quantity = x.quantity + q ∧
    (registerMerge q v u x).status = x.status ∧
    (registerMerge q v u x).product_id = x.product_id ∧
    (registerMerge q v u x).hub_id = x.hub_id ∧
    (registerMerge q v u x).expiry_date = x.expiry_date ∧
    (registerMerge q v u x).purchase_value = some ((x.purchase_value.getD 0) + v) :=
  ⟨rfl, rfl, rfl, rfl, rfl, rfl⟩

theorem registerMerge_price {q : Int} {v u : ℚ} {x : Batch}
    (hpos : 0 < x.quantity + q) :
    (registerMerge q v u x).purchase_unit_price =
      some (((x.purchase_unit_price.getD 0) * x.quantity + u * q) / ((x.quantity + q : Int) : ℚ)) := by
  unfold registerMerge
  dsimp only
  rw [if_pos (by exact_mod_cast hpos : x.quantity + q > 0)]

/-- Invariant step: folding further register calls into a state whose batch
list is `l0 ++ [B]`, where `B` is the unique active batch of the key and `l0`
never matches, accumulates quantity and value, and the unit price stays the
accumulated value over the accumulated quantity. -/
theorem foldRegister_merge (hub pid pname cat : String) (expiry : Nat) :
    ∀ (calls : List RegCall) (s : DB) (l0 : List Batch) (B : Batch) (V : ℚ),
      s.batches = l0 ++ [B] →
      s.hubs.contains (normalizeId hub) = true →
      (∀ b ∈ l0, stockInFindP (normalizeId pid) (normalizeId hub) none (some expiry) b = false) →
      B.product_id = (normalizeId pid) → B.hub_id = (normalizeId hub) → B.expiry_date = some expiry →
      B.status = "active" → 0 < B.quantity →
      B.purchase_value = some V →
      B.purchase_unit_price = some (V / ((B.quantity : Int) : ℚ)) →
      (∀ c ∈ calls, 0 < c.q) →
      ∃ B' : Batch,
        (foldRegister hub pid pname cat expiry calls s).batches = l0 ++ [B'] ∧
        B'.quantity = B.quantity + (calls.map (·.q)).sum ∧
        B'.purchase_unit_price =
          some ((V + (calls.map (·.v)).sum) /
            ((B.quantity + (calls.map (·.q)).sum : Int) : ℚ)) ∧
        B'.status = "active" ∧ B'.product_id = (normalizeId pid) ∧ B'.hub_id = (normalizeId hub) ∧
        B'.expiry_date = some expiry := by
  intro calls
  induction calls with
  | nil =>
      intro s l0 B V hsb hhub h0 hBp hBh hBe hBs hBq hBv hBu _
      refine ⟨B, hsb, by simp, ?_, hBs, hBp, hBh, hBe⟩
      rw [hBu]
      simp
  | cons c rest ih =>
      intro s l0 B V hsb hhub h0 hBp hBh hBe hBs hBq hBv hBu hq
      have hcq : 0 < c.q := hq c (by simp)
      have hpredB : stockInFindP (normalizeId pid) (normalizeId hub) none (some expiry) B = true := by
        simp [stockInFindP, hBp, hBh, hBe, hBs]
      have hfindB : s.batches.find? (stockInFindP (normalizeId pid) (normalizeId hub) none (some expiry)) =
          some B := by
        rw [hsb, find?_append_left_neg h0, List.find?_cons_of_pos _ hpredB]
      set B1 := registerMerge c.q c.v (c.v / (c.q : ℚ)) B with hB1
      have hs1b : (register_inventory (regPayload hub pid pname cat expiry c.q c.v) c.now
          c.genBatchNo c.txnId s).1.batches = l0 ++ [B1] := by
        rw [register_regPayload_batches hub pid pname cat expiry c.q c.v c.now c.genBatchNo
          c.txnId s hhub hcq, hfindB]
        rw [hsb]
        exact updateFirst_eq_of_find? rfl h0 hpredB
      have hs1hub : (register_inventory (regPayload hub pid pname cat expiry c.q c.v) c.now
          c.genBatchNo c.txnId s).1.hubs.contains (normalizeId hub) = true := by
        rw [register_inventory_hubs]
        exact hhub
      have hflds := registerMerge_fields c.q c.v (c.v / (c.q : ℚ)) B
      have hB1q : B1.quantity = B.quantity + c.q := hflds.1
      have hB1pos : 0 < B1.quantity := by rw [hB1q]; omega
      have hB1v : B1.purchase_value = some (V + c.v) := by
        rw [hB1, hflds.2.2.2.2.2, hBv]
        rfl
      have hB1u : B1.purchase_unit_price = some ((V + c.v) / ((B1.quantity : Int) : ℚ)) := by
        rw [hB1, registerMerge_price (by omega : (0 : Int) < B.quantity + c.q)]
        rw [show B1.quantity = B.quantity + c.q from hB1q]
        congr 1
        rw [hBu]
        dsimp only [Option.getD]
        have hBqne : ((B.quantity : Int) : ℚ) ≠ 0 := by
          exact_mod_cast (by omega : (B.quantity : Int) ≠ 0)
        have hcqne : ((c.q : Int) : ℚ) ≠ 0 := by
          exact_mod_cast (by omega : (c.q : Int) ≠ 0)
        field_simp
      obtain ⟨B', hb', hq', hu', hs', hp', hh', he'⟩ :=
        ih _ l0 B1 (V + c.v) hs1b hs1hub h0
          (hB1 ▸ hflds.2.2.1.trans hBp) (hB1 ▸ hflds.2.2.2.1.trans hBh)
          (hB1 ▸ hflds.2.2.2.2.1.trans hBe) (hB1 ▸ hflds.2.1.trans hBs)
          hB1pos hB1v hB1u (fun c' hc' => hq c' (by simp [hc']))
      refine ⟨B', hb', ?_, ?_, hs', hp', hh', he'⟩
      · rw [hq', hB1q, List.map_cons, List.sum_cons]
        ring
      · rw [hu', hB1q, List.map_cons, List.sum_cons, List.map_cons, List.sum_cons]
        congr 2
        · ring
        · push_cast
          ring

/-- Folding a nonempty sequence of no-batch-number register calls for a fresh
(product, hub, expiry) key yields exactly one new batch carrying the summed
quantity and the value-weighted unit price. -/
theorem foldRegister_spec (hub pid pname cat : String) (expiry : Nat)
    (calls : List RegCall) (s : DB)
    (hhub : s.hubs.contains (normalizeId hub) = true)
    (hclean : ∀ b ∈ s.batches, stockInFindP (normalizeId pid) (normalizeId hub) none (some expiry) b = false)
    (hq : ∀ c ∈ calls, 0 < c.q) (hne : calls ≠ []) :
    ∃ B' : Batch,
      (foldRegister hub pid pname cat expiry calls s).batches = s.batches ++ [B'] ∧
      B'.quantity = (calls.map (·.q)).sum ∧
      B'.purchase_unit_price =
        some ((calls.map (·.v)).sum / (((calls.map (·.q)).sum : Int) : ℚ)) ∧
      B'.status = "active" := by
  cases calls with
  | nil => exact absurd rfl hne
  | cons c rest =>
      have hcq : 0 < c.q := hq c (by simp)
      have hfindnone : s.batches.find? (stockInFindP (normalizeId pid) (normalizeId hub) none (some expiry)) =
          none := List.find?_eq_none.mpr (fun b hb => by simp [hclean b hb])
      set B0 := mkBatchDoc (normalizeId pid) (normalizeId hub) c.genBatchNo c.q (some expiry) c.v
        (c.v / (c.q : ℚ)) c.now (freshOid s.batches) with hB0
      have hs1b : (register_inventory (regPayload hub pid pname cat expiry c.q c.v) c.now
          c.genBatchNo c.txnId s).1.batches = s.batches ++ [B0] := by
        rw [register_regPayload_batches hub pid pname cat expiry c.q c.v c.now c.genBatchNo
          c.txnId s hhub hcq, hfindnone]
      have hs1hub : (register_inventory (regPayload hub pid pname cat expiry c.q c.v) c.now
          c.genBatchNo c.txnId s).1.hubs.contains (normalizeId hub) = true := by
        rw [register_inventory_hubs]
        exact hhub
      obtain ⟨B', hb', hq', hu', hs', _, _, _⟩ :=
        foldRegister_merge hub pid pname cat expiry rest _ s.batches B0 c.v hs1b hs1hub
          hclean rfl rfl rfl rfl (by rw [hB0]; exact hcq) rfl rfl
          (fun c' hc' => hq c' (by simp [hc']))
      refine ⟨B', hb', ?_, ?_, hs'⟩
      · rw [hq', List.map_cons, List.sum_cons]
        rw [show B0.quantity = c.q from rfl]
      · rw [hu', List.map_cons, List.sum_cons, List.map_cons, List.sum_cons]
        rw [show B0.quantity = c.q from rfl]

/-! Dispatch error-path and evolution helpers. -/

theorem dispatch_no_from_hub {p : DispatchPayload} {now : Nat} {did : String}
    {genTxn : Nat → String} {s : DB}
    (h : s.hubs.contains (normalizeId p.From_Hub_ID) = false) :
    dispatch_inventory p now did genTxn s =
      (s, .error (.hubNotFound (normalizeId p.From_Hub_ID))) := by
  unfold dispatch_inventory
  rw [if_neg (by simp only [h]; exact Bool.false_ne_true)]

theorem dispatch_no_to_hub {p : DispatchPayload} {now : Nat} {did : String}
    {genTxn : Nat → String} {s : DB}
    (h1 : s.hubs.contains (normalizeId p.From_Hub_ID) = true)
    (h2 : s.hubs.contains (normalizeId p.To_Hub_ID) = false) :
    dispatch_inventory p now did genTxn s =
      (s, .error (.hubNotFound (normalizeId p.To_Hub_ID))) := by
  unfold dispatch_inventory
  rw [if_pos (by simpa using h1), if_neg (by simp only [h2]; exact Bool.false_ne_true)]

/-- The insufficient-stock path of `dispatch_inventory`: the error carries the
requested and available figures and the returned state is the input state,
with no batch, transaction or dispatch written. -/
theorem dispatch_insufficient_eq {p : DispatchPayload} {now : Nat} {did : String}
    {genTxn : Nat → String} {s : DB}
    (h1 : s.hubs.contains (normalizeId p.From_Hub_ID) = true)
    (h2 : s.hubs.contains (normalizeId p.To_Hub_ID) = true)
    (hgt : totalAvailable s (normalizeId p.Product_ID) (normalizeId p.From_Hub_ID) < p.Quantity) :
    dispatch_inventory p now did genTxn s =
      (s, .error (.insufficientStock p.Quantity
        (totalAvailable s (normalizeId p.Product_ID) (normalizeId p.From_Hub_ID)))) := by
  unfold dispatch_inventory
  rw [if_pos (by simpa using h1), if_pos (by simpa using h2), if_pos hgt]

theorem dispatch_success_batches {p : DispatchPayload} {now : Nat} {did : String}
    {genTxn : Nat → String} {s : DB}
    (h1 : s.hubs.contains (normalizeId p.From_Hub_ID) = true)
    (h2 : s.hubs.contains (normalizeId p.To_Hub_ID) = true)
    (hqle : ¬ totalAvailable s (normalizeId p.Product_ID) (normalizeId p.From_Hub_ID) < p.Quantity) :
    (dispatch_inventory p now did genTxn s).1.batches =
      (runConsume genTxn (normalizeId p.Product_ID) (normalizeId p.From_Hub_ID) (normalizeId p.To_Hub_ID) now
        (fifoCursor s (normalizeId p.Product_ID) (normalizeId p.From_Hub_ID)) p.Quantity 0 s).1.batches := by
  unfold dispatch_inventory
  rw [if_pos (by simpa using h1), if_pos (by simpa using h2), if_neg hqle]

/-- Status evolution of a batch across one `dispatch_inventory` call: either
untouched, or decremented with the status flipping to `depleted` exactly when
the new quantity is zero. -/
theorem dispatch_batch_evolution (p : DispatchPayload) (now : Nat) (did : String)
    (genTxn : Nat → String) (s : DB)
    (hnd : (s.batches.map (·.oid)).Nodup)
    (hnn : ∀ x ∈ s.batches, 0 ≤ x.quantity) :
    ∀ o b_old, s.batches.find? (oidP o) = some b_old →
      ∃ b_new,
        (dispatch_inventory p now did genTxn s).1.batches.find? (oidP o) = some b_new ∧
        (b_new = b_old ∨
          (b_old.status = "active" ∧ 0 ≤ b_new.quantity ∧ b_new.quantity < b_old.quantity ∧
            ((b_new.quantity = 0 ∧ b_new.status = "depleted") ∨
             (0 < b_new.quantity ∧ b_new.status = "active")))) := by
  intro o b_old hold
  by_cases h1 : s.hubs.contains (normalizeId p.From_Hub_ID) = true
  · by_cases h2 : s.hubs.contains (normalizeId p.To_Hub_ID) = true
    · by_cases h3 : totalAvailable s (normalizeId p.Product_ID) (normalizeId p.From_Hub_ID) < p.Quantity
      · refine ⟨b_old, ?_, Or.inl rfl⟩
        rw [dispatch_insufficient_eq h1 h2 h3]
        exact hold
      · have := runConsume_evolution genTxn (normalizeId p.Product_ID) (normalizeId p.From_Hub_ID)
          (normalizeId p.To_Hub_ID) now (fifoCursor s (normalizeId p.Product_ID) (normalizeId p.From_Hub_ID))
          p.Quantity 0 s (fifoCursor_find? hnd) (fifoCursor_nodup hnd)
          (fun b hb => (fifoCursor_mem hb).2.2)
          (fun b hb => by
            have := (fifoCursor_mem hb).2.1
            simp only [activeBatchP, Bool.and_eq_true, beq_iff_eq] at this
            exact this.2)
          o b_old hold
        obtain ⟨b_new, hfind, hcase⟩ := this
        refine ⟨b_new, ?_, hcase⟩
        rw [dispatch_success_batches h1 h2 h3]
        exact hfind
    · have h2' : s.hubs.contains (normalizeId p.To_Hub_ID) = false := by simpa using h2
      refine ⟨b_old, ?_, Or.inl rfl⟩
      rw [dispatch_no_to_hub h1 h2']
      exact hold
  · have h1' : s.hubs.contains (normalizeId p.From_Hub_ID) = false := by simpa using h1
    refine ⟨b_old, ?_, Or.inl rfl⟩
    rw [dispatch_no_from_hub h1']
    exact hold

/-- The destination hub is credited exactly the dispatch's consumption total. -/
theorem mark_received_hubTotal {did : String} {now : Nat} {genTxn : Nat → String} {s : DB}
    {d : DispatchDoc} (h : s.dispatches.find? (dispP did) = some d)
    (hst : d.status = "In-Transit") :
    hubTotal (mark_dispatch_received_service did now genTxn s).1 d.product_id d.to_hub_id =
      hubTotal s d.product_id d.to_hub_id + traceSum d.batch_consumption := by
  unfold hubTotal
  rw [mark_received_batches h hst]
  exact creditAll_qtySum
    (p := fun b => b.product_id == d.product_id && b.hub_id == d.to_hub_id)
    (fun bno x hx => by
      simp only [destP, Bool.and_eq_true] at hx
      simp [hx.1.1, hx.1.2])
    (fun q x => rfl)
    (fun bno q o => by simp [creditNew])
    d.batch_consumption 0 s

/-! Concrete states used to witness the claims. -/

def sampleGen : Nat → String := fun k => "txn-" ++ toString k

def sampleBatch : Batch :=
  { oid := 1, product_id := "P1", hub_id := "HUB_A", batch_no := "B1", quantity := 100,
    expiry_date := some 60, purchase_value := some 4000, purchase_unit_price := some 40,
    status := "active", created_at := some 0 }

def sampleDB : DB :=
  { hubs := ["HUB_A", "HUB_B"], products := [], batches := [sampleBatch], txns := [],
    dispatches := [],
    drivers := [{ driver_id := "DR1", name := "Dana", status := "active" }],
    vehicles := [{ vehicle_id := "V1", status := "Available" }] }

def sampleDispatchReq : DispatchPayload :=
  { Product_ID := "P1", Quantity := 30, From_Hub_ID := "HUB_A", To_Hub_ID := "HUB_B",
    Request_Ref := none, Notes := none }

def bigDispatchReq : DispatchPayload :=
  { Product_ID := "P1", Quantity := 200, From_Hub_ID := "HUB_A", To_Hub_ID := "HUB_B",
    Request_Ref := none, Notes := none }

/-- C1: for every Dispatch call whose requested quantity is at most the total
active quantity of (product, from-hub), the FIFO loop walks the cursor sorted
by (Expiry_Date asc, created_at asc) taking `min(batch.quantity, remaining)`
from each batch; the returned consumption trace sums to exactly the requested
quantity, and the returned remaining quantity equals the total active
quantity before the dispatch minus the quantity dispatched. -/
theorem c1_dispatch_fifo_correct (p : DispatchPayload) (now : Nat) (did : String)
    (genTxn : Nat → String) (s : DB)
    (hfrom : s.hubs.contains (normalizeId p.From_Hub_ID) = true)
    (hto : s.hubs.contains (normalizeId p.To_Hub_ID) = true)
    (hnd : (s.batches.map (·.oid)).Nodup)
    (hnn : ∀ x ∈ s.batches, 0 ≤ x.quantity)
    (hq0 : 0 ≤ p.Quantity)
    (hqle : p.Quantity ≤
      totalAvailable s (normalizeId p.Product_ID) (normalizeId p.From_Hub_ID)) :
    ∃ s' out, dispatch_inventory p now did genTxn s = (s', Except.ok out) ∧
      out.batch_consumption =
        (runConsume genTxn (normalizeId p.Product_ID) (normalizeId p.From_Hub_ID)
          (normalizeId p.To_Hub_ID) now
          (fifoCursor s (normalizeId p.Product_ID) (normalizeId p.From_Hub_ID))
          p.Quantity 0 s).2 ∧
      (fifoCursor s (normalizeId p.Product_ID) (normalizeId p.From_Hub_ID)).Sorted fifoLE ∧
      traceSum out.batch_consumption = p.Quantity ∧
      out.remaining_quantity =
        totalAvailable s (normalizeId p.Product_ID) (normalizeId p.From_Hub_ID) -
          p.Quantity := by
  obtain ⟨s', out, heq, _, htreq, htr, hrem, _⟩ :=
    dispatch_inventory_ok p now did genTxn s hfrom hto hnd hnn hq0 hqle
  exact ⟨s', out, heq, htreq, fifoCursor_sorted s _ _, htr, hrem⟩

/-- Witness for C1: dispatching 30 of 100 available units. -/
theorem c1_witness : ∃ s' out,
    dispatch_inventory sampleDispatchReq 7 "D1" sampleGen sampleDB = (s', Except.ok out) ∧
    traceSum out.batch_consumption = 30 := by
  obtain ⟨s', out, heq, _, _, htr, _⟩ :=
    c1_dispatch_fifo_correct sampleDispatchReq 7 "D1" sampleGen sampleDB
      (by decide) (by decide) (by decide) (by decide) (by decide) (by decide)
  exact ⟨s', out, heq, htr⟩

/-- C2: for every Dispatch call whose requested quantity exceeds the total
active quantity of (product, from-hub), the operation fails with the
insufficient-stock error carrying both the requested and available amounts,
and the returned state is the input state: no batch is mutated, no OUT
transaction is appended, no dispatch record is created. -/
theorem c2_insufficient_stock (p : DispatchPayload) (now : Nat) (did : String)
    (genTxn : Nat → String) (s : DB)
    (hfrom : s.hubs.contains (normalizeId p.From_Hub_ID) = true)
    (hto : s.hubs.contains (normalizeId p.To_Hub_ID) = true)
    (hgt : totalAvailable s (normalizeId p.Product_ID) (normalizeId p.From_Hub_ID) <
      p.Quantity) :
    dispatch_inventory p now did genTxn s =
      (s, Except.error (DispatchErr.insufficientStock p.Quantity
        (totalAvailable s (normalizeId p.Product_ID) (normalizeId p.From_Hub_ID)))) :=
  dispatch_insufficient_eq hfrom hto hgt

/-- Witness for C2: requesting 200 of 100 available units. -/
theorem c2_witness :
    dispatch_inventory bigDispatchReq 7 "D1" sampleGen sampleDB =
      (sampleDB, Except.error (DispatchErr.insufficientStock 200
        (totalAvailable sampleDB (normalizeId "P1") (normalizeId "HUB_A")))) :=
  c2_insufficient_stock bigDispatchReq 7 "D1" sampleGen sampleDB
    (by decide) (by decide) (by decide)

def c6Batch : Batch :=
  { oid := 1, product_id := "P1", hub_id := "HUB_A", batch_no := "B1", quantity := 1,
    expiry_date := some 60, purchase_value := some 40, purchase_unit_price := some 40,
    status := "active", created_at := some 0 }

def c6DB : DB :=
  { hubs := ["HUB_A"], products := [], batches := [c6Batch], txns := [], dispatches := [],
    drivers := [], vehicles := [] }

/-- C6 counterexample: the per-batch decrement performed during the dispatch
loop (`decBatch`, modelling lines 379-384) is keyed only on `_id`, with no
quantity condition: applied to a batch whose current quantity (1) is smaller
than the amount to take (2), the write is applied rather than failing, and
the quantity becomes negative. -/
theorem c6_counterexample :
    ((decBatch 1 2 c6DB).batches.find? (oidP 1)).map (·.quantity) = some (-1) ∧
    (decBatch 1 2 c6DB).batches ≠ c6DB.batches := by decide

/-- C6 (amended): the per-batch decrement is unconditional, but in a
serialized `dispatch_inventory` call each take is `min(quantity, remaining)`
over the cursor snapshot, so no batch quantity ever becomes negative. -/
theorem c6_amended_no_negative (p : DispatchPayload) (now : Nat) (did : String)
    (genTxn : Nat → String) (s : DB)
    (hnd : (s.batches.map (·.oid)).Nodup)
    (hnn : ∀ x ∈ s.batches, 0 ≤ x.quantity) :
    ∀ x ∈ (dispatch_inventory p now did genTxn s).1.batches, 0 ≤ x.quantity := by
  by_cases h1 : s.hubs.contains (normalizeId p.From_Hub_ID) = true
  · by_cases h2 : s.hubs.contains (normalizeId p.To_Hub_ID) = true
    · by_cases h3 : totalAvailable s (normalizeId p.Product_ID)
          (normalizeId p.From_Hub_ID) < p.Quantity
      · rw [dispatch_insufficient_eq h1 h2 h3]
        exact hnn
      · intro x hx
        rw [dispatch_success_batches h1 h2 h3] at hx
        exact runConsume_nonneg genTxn (normalizeId p.Product_ID)
          (normalizeId p.From_Hub_ID) (normalizeId p.To_Hub_ID) now
          (fifoCursor s (normalizeId p.Product_ID) (normalizeId p.From_Hub_ID))
          p.Quantity 0 s (fifoCursor_find? hnd) (fifoCursor_nodup hnd) hnn x hx
    · have h2' : s.hubs.contains (normalizeId p.To_Hub_ID) = false := by simpa using h2
      rw [dispatch_no_to_hub h1 h2']
      exact hnn
  · have h1' : s.hubs.contains (normalizeId p.From_Hub_ID) = false := by simpa using h1
    rw [dispatch_no_from_hub h1']
    exact hnn

/-- Witness for the amended C6 at a concrete dispatch: the touched batch ends
nonnegative. -/
theorem c6_amended_witness :
    0 ≤ ((((dispatch_inventory sampleDispatchReq 7 "D1" sampleGen sampleDB).1.batches.find?
      (oidP 1)).map (·.quantity)).getD 0) := by
  have h := c6_amended_no_negative sampleDispatchReq 7 "D1" sampleGen sampleDB
    (by decide) (by decide)
  cases hf : (dispatch_inventory sampleDispatchReq 7 "D1" sampleGen sampleDB).1.batches.find?
      (oidP 1) with
  | none => simp
  | some b =>
      have hb := h b (List.mem_of_find?_eq_some hf)
      simpa using hb

/-- C10: registering with an explicit batch number that matches an existing
non-active batch (the batch-number lookup has no status filter) merges the
quantity into that batch, leaves its status unchanged, keeps the merged
quantity out of the total-available aggregate, and keeps the batch out of the
FIFO consumption cursor (both consider only `active` batches). -/
theorem c10_explicit_bno_inactive_merge (p : RegisterPayload) (now : Nat)
    (gbn txid : String) (s : DB)
    (hhub : s.hubs.contains (normalizeId p.Hub_ID) = true)
    (bno : String) (hb : p.Batch_No = some bno) (hbne : ((normalizeId bno) == "") = false)
    (b : Batch)
    (hfound : s.batches.find? (stockInFindP (normalizeId p.Product_ID)
      (normalizeId p.Hub_ID) (some (normalizeId bno)) (some p.Expiry_Date)) = some b)
    (hstat : b.status = "depleted" ∨ b.status = "archived") :
    ∃ b', (register_inventory p now gbn txid s).1.batches.find?
        (stockInFindP (normalizeId p.Product_ID) (normalizeId p.Hub_ID)
          (some (normalizeId bno)) (some p.Expiry_Date)) = some b' ∧
      b'.quantity = b.quantity + p.Quantity ∧
      b'.status = b.status ∧
      totalAvailable (register_inventory p now gbn txid s).1 (normalizeId p.Product_ID)
          (normalizeId p.Hub_ID) =
        totalAvailable s (normalizeId p.Product_ID) (normalizeId p.Hub_ID) ∧
      b' ∉ fifoCursor (register_inventory p now gbn txid s).1 (normalizeId p.Product_ID)
        (normalizeId p.Hub_ID) := by
  have hreg := register_bno_merge p now gbn txid s hhub hb hbne hfound
  have hFPpres : ∀ x, stockInFindP (normalizeId p.Product_ID) (normalizeId p.Hub_ID)
      (some (normalizeId bno)) (some p.Expiry_Date)
      (registerMerge p.Quantity p.Value
        (if p.Quantity > 0 then p.Value / (p.Quantity : ℚ) else 0) x) = true →
      stockInFindP (normalizeId p.Product_ID) (normalizeId p.Hub_ID)
        (some (normalizeId bno)) (some p.Expiry_Date) x = true := fun x hx => hx
  have hfind' : (register_inventory p now gbn txid s).1.batches.find?
      (stockInFindP (normalizeId p.Product_ID) (normalizeId p.Hub_ID)
        (some (normalizeId bno)) (some p.Expiry_Date)) =
      some (registerMerge p.Quantity p.Value
        (if p.Quantity > 0 then p.Value / (p.Quantity : ℚ) else 0) b) := by
    have hpf : ∀ x, stockInFindP (normalizeId p.Product_ID) (normalizeId p.Hub_ID)
        (some (normalizeId bno)) (some p.Expiry_Date) x = true →
        stockInFindP (normalizeId p.Product_ID) (normalizeId p.Hub_ID)
          (some (normalizeId bno)) (some p.Expiry_Date)
          (registerMerge p.Quantity p.Value
            (if p.Quantity > 0 then p.Value / (p.Quantity : ℚ) else 0) x) = true :=
      fun x hx => hx
    rw [hreg, find?_updateFirst_self hpf, hfound]
    rfl
  refine ⟨_, hfind', rfl, rfl, ?_, ?_⟩
  · have hbact : activeBatchP (normalizeId p.Product_ID) (normalizeId p.Hub_ID) b = false := by
      rcases hstat with h | h <;> simp [activeBatchP, h]
    have hbact' : activeBatchP (normalizeId p.Product_ID) (normalizeId p.Hub_ID)
        (registerMerge p.Quantity p.Value
          (if p.Quantity > 0 then p.Value / (p.Quantity : ℚ) else 0) b) = false := by
      rcases hstat with h | h <;>
        simp [activeBatchP, registerMerge, h]
    unfold totalAvailable
    rw [hreg, qtySum_updateFirst hfound, hbact, hbact']
    simp
  · intro hmem
    have hact := (fifoCursor_mem hmem).2.1
    have : b.status = "active" := by
      simp only [activeBatchP, registerMerge, Bool.and_eq_true, decide_eq_true_eq] at hact
      exact beq_iff_eq.mp hact.2
    rcases hstat with h | h <;> rw [h] at this <;> exact absurd this (by decide)

def c10Payload : RegisterPayload :=
  { Hub_ID := "HUB_A", Product_ID := "P1", Product_Name := "Rice", Quantity := 10,
    Value := 500, Selling_Price := 45, Category := "Grains", Product_Description := none,
    Expiry_Date := 60, Brand := none, Batch_No := some "B9", Purchase_Ref := none }

def c10Batch : Batch :=
  { oid := 3, product_id := "P1", hub_id := "HUB_A", batch_no := "B9", quantity := 4,
    expiry_date := some 50, purchase_value := some 100, purchase_unit_price := some 25,
    status := "depleted", created_at := some 0 }

def c10DB : DB :=
  { hubs := ["HUB_A"], products := [], batches := [c10Batch], txns := [], dispatches := [],
    drivers := [], vehicles := [] }

/-- Witness for C10: merging 10 units into a depleted batch `B9`. -/
theorem c10_witness :
    ∃ b', (register_inventory c10Payload 5 "G1" "T1" c10DB).1.batches.find?
        (stockInFindP (normalizeId "P1") (normalizeId "HUB_A")
          (some (normalizeId "B9")) (some 60)) = some b' ∧
      b'.quantity = 4 + 10 ∧
      b'.status = "depleted" ∧
      totalAvailable (register_inventory c10Payload 5 "G1" "T1" c10DB).1
          (normalizeId "P1") (normalizeId "HUB_A") =
        totalAvailable c10DB (normalizeId "P1") (normalizeId "HUB_A") ∧
      b' ∉ fifoCursor (register_inventory c10Payload 5 "G1" "T1" c10DB).1
        (normalizeId "P1") (normalizeId "HUB_A") := by
  obtain ⟨b', hf, hq, hs, ht, hc⟩ :=
    c10_explicit_bno_inactive_merge c10Payload 5 "G1" "T1" c10DB (by decide) "B9" rfl
      (by decide) c10Batch (by decide) (Or.inl rfl)
  exact ⟨b', hf, hq, hs, ht, hc⟩

def c7DestBatch : Batch :=
  { oid := 2, product_id := "P1", hub_id := "HUB_B", batch_no := "B1", quantity := 0,
    expiry_date := none, purchase_value := none, purchase_unit_price := none,
    status := "depleted", created_at := none }

def c7Dispatch : DispatchDoc :=
  { dispatch_id := "D7", product_id := "P1", from_hub_id := "HUB_A", to_hub_id := "HUB_B",
    quantity := 5, batch_consumption := [{ batch_no := "B1", qty := 5, unit_cost := 40 }],
    vehicle_assigned := "V1", driver_assigned := "DR1", status := "In-Transit",
    timestamp := 0, arrival_time := none }

def c7DB : DB :=
  { hubs := ["HUB_A", "HUB_B"], products := [], batches := [c7DestBatch], txns := [],
    dispatches := [c7Dispatch],
    drivers := [{ driver_id := "DR1", name := "Dana", status := "Assigned" }],
    vehicles := [{ vehicle_id := "V1", status := "In-Transit" }] }

/-- C7 counterexample: the receiving upsert of `mark_dispatch_received_service`
applies `$set {status: "active"}` also when the destination batch already
exists, so crediting a `depleted` destination batch flips it back to `active`
without any decrement having occurred: a non-active status does revert. -/
theorem c7_counterexample :
    ((c7DB.batches.find? (oidP 2)).map (·.status) = some "depleted") ∧
    (((mark_dispatch_received_service "D7" 9 sampleGen c7DB).1.batches.find?
        (oidP 2)).map (·.status) = some "active") := by decide

/-- C7 (amended): `register_inventory` and `update_inventory` never change any
existing batch's status; `dispatch_inventory` changes a batch's status only by
decrementing an `active` batch, flipping it to `depleted` exactly when the new
quantity is zero. (The receiving reconciler is excluded: its upsert can set a
non-active destination batch back to `active`.) -/
theorem c7_amended_status_discipline (s : DB)
    (hnd : (s.batches.map (·.oid)).Nodup)
    (hnn : ∀ x ∈ s.batches, 0 ≤ x.quantity) :
    (∀ (p : RegisterPayload) (now : Nat) (g t : String) (o : Nat) (b_old b_new : Batch),
       s.batches.find? (oidP o) = some b_old →
       (register_inventory p now g t s).1.batches.find? (oidP o) = some b_new →
       b_new.status = b_old.status) ∧
    (∀ (p : UpdatePayload) (now : Nat) (g t : String) (o : Nat) (b_old b_new : Batch),
       s.batches.find? (oidP o) = some b_old →
       (update_inventory p now g t s).1.batches.find? (oidP o) = some b_new →
       b_new.status = b_old.status) ∧
    (∀ (p : DispatchPayload) (now : Nat) (did : String) (genTxn : Nat → String)
       (o : Nat) (b_old : Batch),
       s.batches.find? (oidP o) = some b_old →
       ∃ b_new,
         (dispatch_inventory p now did genTxn s).1.batches.find? (oidP o) = some b_new ∧
         (b_new = b_old ∨
           (b_old.status = "active" ∧ 0 ≤ b_new.quantity ∧
            b_new.quantity < b_old.quantity ∧
            ((b_new.quantity = 0 ∧ b_new.status = "depleted") ∨
             (0 < b_new.quantity ∧ b_new.status = "active"))))) := by
  refine ⟨?_, ?_, ?_⟩
  · intro p now g t o b_old b_new hold hnew
    exact status_preserved_of_cases (register_inventory_batches_cases p now g t s) hold hnew
  · intro p now g t o b_old b_new hold hnew
    exact status_preserved_of_cases (update_inventory_batches_cases p now g t s) hold hnew
  · intro p now did genTxn o b_old hold
    exact dispatch_batch_evolution p now did genTxn s hnd hnn o b_old hold

/-- Witness for the amended C7: the dispatch clause at a concrete state. -/
theorem c7_amended_witness :
    ∃ b_new,
      (dispatch_inventory sampleDispatchReq 7 "D1" sampleGen sampleDB).1.batches.find?
        (oidP 1) = some b_new ∧
      (b_new = sampleBatch ∨
        (sampleBatch.status = "active" ∧ 0 ≤ b_new.quantity ∧
         b_new.quantity < sampleBatch.quantity ∧
         ((b_new.quantity = 0 ∧ b_new.status = "depleted") ∨
          (0 < b_new.quantity ∧ b_new.status = "active")))) :=
  (c7_amended_status_discipline sampleDB (by decide) (by decide)).2.2
    sampleDispatchReq 7 "D1" sampleGen 1 sampleBatch (by decide)

def c8Dispatch : DispatchDoc :=
  { dispatch_id := "D8", product_id := "P1", from_hub_id := "HUB_A", to_hub_id := "HUB_B",
    quantity := 5, batch_consumption := [], vehicle_assigned := "In-Progress",
    driver_assigned := "In-Progress", status := "In-Progress", timestamp := 0,
    arrival_time := none }

def c8Driver : Driver := { driver_id := "DR1", name := "Dana", status := "active" }

def c8Vehicle : Vehicle := { vehicle_id := "V1", status := "Available" }

def c8DB : DB :=
  { hubs := ["HUB_A", "HUB_B"], products := [], batches := [], txns := [],
    dispatches := [c8Dispatch], drivers := [c8Driver], vehicles := [c8Vehicle] }

/-- C8: assignResources picks the first dispatch with status `In-Progress`,
the first `"active"` driver and the first `"Available"` vehicle in storage
order; if any of the three is missing it changes nothing and reports which
resource is short; otherwise it marks the driver `Assigned` and the vehicle
`In-Transit`, records both references on that dispatch, and moves the
dispatch to `In-Transit`. -/
theorem c8_assign_resources (s : DB) :
    (s.dispatches.find? (fun d => d.status == "In-Progress") = none →
      dispatch_vehicle_service s = (s, .noDispatch)) ∧
    (∀ dsp, s.dispatches.find? (fun d => d.status == "In-Progress") = some dsp →
      s.drivers.find? (fun d => d.status == "active") = none →
      dispatch_vehicle_service s = (s, .noDriver)) ∧
    (∀ dsp drv, s.dispatches.find? (fun d => d.status == "In-Progress") = some dsp →
      s.drivers.find? (fun d => d.status == "active") = some drv →
      s.vehicles.find? (fun v => v.status == "Available") = none →
      dispatch_vehicle_service s = (s, .noVehicle)) ∧
    (∀ dsp drv veh, s.dispatches.find? (fun d => d.status == "In-Progress") = some dsp →
      s.drivers.find? (fun d => d.status == "active") = some drv →
      s.vehicles.find? (fun v => v.status == "Available") = some veh →
      dispatch_vehicle_service s =
        ({ s with
            drivers := updateFirst (fun d => d.driver_id == drv.driver_id)
              driverAssignedF s.drivers,
            vehicles := updateFirst (fun v => v.vehicle_id == veh.vehicle_id)
              vehicleTransitF s.vehicles,
            dispatches := updateFirst (fun d => d.status == "In-Progress")
              (assignSet drv.driver_id veh.vehicle_id) s.dispatches },
         .assigned drv.driver_id veh.vehicle_id dsp.dispatch_id)) := by
  refine ⟨fun h => assign_no_dispatch h,
    fun dsp h1 h2 => assign_no_driver h1 h2,
    fun dsp drv h1 h2 h3 => assign_no_vehicle h1 h2 h3,
    fun dsp drv veh h1 h2 h3 => assign_success_eq h1 h2 h3⟩

/-- Witness for C8: the success branch at a concrete state. -/
theorem c8_witness :
    dispatch_vehicle_service c8DB =
      ({ c8DB with
          drivers := updateFirst (fun d => d.driver_id == c8Driver.driver_id)
            driverAssignedF c8DB.drivers,
          vehicles := updateFirst (fun v => v.vehicle_id == c8Vehicle.vehicle_id)
            vehicleTransitF c8DB.vehicles,
          dispatches := updateFirst (fun d => d.status == "In-Progress")
            (assignSet c8Driver.driver_id c8Vehicle.vehicle_id) c8DB.dispatches },
       .assigned c8Driver.driver_id c8Vehicle.vehicle_id c8Dispatch.dispatch_id) :=
  (c8_assign_resources c8DB).2.2.2 c8Dispatch c8Driver c8Vehicle
    (by decide) (by decide) (by decide)

def c9Transit : DispatchDoc :=
  { dispatch_id := "D0", product_id := "P1", from_hub_id := "HUB_A", to_hub_id := "HUB_B",
    quantity := 5, batch_consumption := [{ batch_no := "B1", qty := 5, unit_cost := 40 }],
    vehicle_assigned := "V1", driver_assigned := "DR1", status := "In-Transit",
    timestamp := 0, arrival_time := none }

def c9Pending : DispatchDoc :=
  { dispatch_id := "D1", product_id := "P2", from_hub_id := "HUB_A", to_hub_id := "HUB_B",
    quantity := 3, batch_consumption := [], vehicle_assigned := "In-Progress",
    driver_assigned := "In-Progress", status := "In-Progress", timestamp := 1,
    arrival_time := none }

def c9DB : DB :=
  { hubs := ["HUB_A", "HUB_B"], products := [], batches := [], txns := [],
    dispatches := [c9Transit, c9Pending],
    drivers := [{ driver_id := "DR1", name := "Dana", status := "Assigned" }],
    vehicles := [{ vehicle_id := "V1", status := "In-Transit" },
                 { vehicle_id := "V2", status := "Available" }] }

/-- C9 counterexample: `mark_dispatch_received_service` releases the driver
(step 3a) BEFORE marking the dispatch `Completed` (step 4), so the steps are
not one atomic allocation-release unit. Starting from a state with no double
hold, running exactly the credit and driver-release prefix of MarkReceived on
the `In-Transit` dispatch `D0` and then a full interleaved assignResources
yields a state where two in-flight dispatches (`D0`, still `In-Transit`, and
the freshly assigned `D1`) hold the same driver `DR1`. -/
theorem c9_counterexample :
    doubleHoldDriver c9DB = false ∧
    doubleHoldDriver ((dispatch_vehicle_service (resetDriver "DR1"
      (creditAll "P1" "HUB_B" "HUB_A" "D0" 2 sampleGen
        c9Transit.batch_consumption 0 c9DB))).1) = true := by decide

/-- C9 (amended): serialized invocations of assignResources are exclusive:
two successive successful allocations never hand out the same driver or the
same vehicle (the first call flips the resource flags busy, so the second
call's idle-resource lookups cannot return them), provided driver and vehicle
ids are unique. -/
theorem c9_amended_serialized_assign_exclusive (s : DB)
    (hdn : (s.drivers.map (·.driver_id)).Nodup)
    (hvn : (s.vehicles.map (·.vehicle_id)).Nodup)
    {s1 s2 : DB} {d1 v1 i1 d2 v2 i2 : String}
    (h1 : dispatch_vehicle_service s = (s1, .assigned d1 v1 i1))
    (h2 : dispatch_vehicle_service s1 = (s2, .assigned d2 v2 i2)) :
    d1 ≠ d2 ∧ v1 ≠ v2 :=
  assign_sequential_distinct hdn hvn h1 h2

def c9SeqE1 : DispatchDoc :=
  { dispatch_id := "E1", product_id := "P1", from_hub_id := "HUB_A", to_hub_id := "HUB_B",
    quantity := 2, batch_consumption := [], vehicle_assigned := "In-Progress",
    driver_assigned := "In-Progress", status := "In-Progress", timestamp := 0,
    arrival_time := none }

def c9SeqE2 : DispatchDoc :=
  { dispatch_id := "E2", product_id := "P2", from_hub_id := "HUB_A", to_hub_id := "HUB_B",
    quantity := 4, batch_consumption := [], vehicle_assigned := "In-Progress",
    driver_assigned := "In-Progress", status := "In-Progress", timestamp := 1,
    arrival_time := none }

def c9SeqDB : DB :=
  { hubs := ["HUB_A", "HUB_B"], products := [], batches := [], txns := [],
    dispatches := [c9SeqE1, c9SeqE2],
    drivers := [{ driver_id := "DR1", name := "Dana", status := "active" },
                { driver_id := "DR2", name := "Eli", status := "active" }],
    vehicles := [{ vehicle_id := "V1", status := "Available" },
                 { vehicle_id := "V2", status := "Available" }] }

/-- Witness for the amended C9: two serialized allocations at a concrete
state take distinct drivers and distinct vehicles. -/
theorem c9_amended_witness : ("DR1" : String) ≠ "DR2" ∧ ("V1" : String) ≠ "V2" := by
  have h1 : dispatch_vehicle_service c9SeqDB =
      ((dispatch_vehicle_service c9SeqDB).1, AssignResult.assigned "DR1" "V1" "E1") := by
    decide
  have h2 : dispatch_vehicle_service (dispatch_vehicle_service c9SeqDB).1 =
      ((dispatch_vehicle_service (dispatch_vehicle_service c9SeqDB).1).1,
       AssignResult.assigned "DR2" "V2" "E2") := by
    decide
  exact c9_amended_serialized_assign_exclusive c9SeqDB (by decide) (by decide) h1 h2

def c4Dispatch : DispatchDoc :=
  { dispatch_id := "D4", product_id := "P1", from_hub_id := "HUB_A", to_hub_id := "HUB_B",
    quantity := 5, batch_consumption := [{ batch_no := "B1", qty := 5, unit_cost := 40 }],
    vehicle_assigned := "V1", driver_assigned := "DR1", status := "In-Transit",
    timestamp := 0, arrival_time := none }

def c4DB : DB :=
  { hubs := ["HUB_A", "HUB_B"], products := [], batches := [], txns := [],
    dispatches := [c4Dispatch],
    drivers := [{ driver_id := "DR1", name := "Dana", status := "Assigned" }],
    vehicles := [{ vehicle_id := "V1", status := "In-Transit" }] }

/-- C4: `MarkReceived` succeeds only on an existing dispatch whose status is
`In-Transit`: a missing dispatch id is rejected with not-found and any other
status (including `Completed`) with invalid-state, both leaving the state
unchanged; hence a second `MarkReceived` on the same id fails with
invalid-state `Completed`, and the destination hub is credited exactly one
dispatch's worth of stock (the stored trace total, once). -/
theorem c4_mark_received_guard (did : String) (now now2 : Nat)
    (genTxn genTxn2 : Nat → String) (s : DB) :
    (s.dispatches.find? (dispP did) = none →
      mark_dispatch_received_service did now genTxn s = (s, .error .dispatchNotFound)) ∧
    (∀ d, s.dispatches.find? (dispP did) = some d → ¬ d.status = "In-Transit" →
      mark_dispatch_received_service did now genTxn s =
        (s, .error (.invalidState d.status))) ∧
    (∀ d, s.dispatches.find? (dispP did) = some d → d.status = "In-Transit" →
      mark_dispatch_received_service did now2 genTxn2
          (mark_dispatch_received_service did now genTxn s).1 =
        ((mark_dispatch_received_service did now genTxn s).1,
         .error (.invalidState "Completed")) ∧
      hubTotal (mark_dispatch_received_service did now genTxn s).1
          d.product_id d.to_hub_id =
        hubTotal s d.product_id d.to_hub_id + traceSum d.batch_consumption) := by
  refine ⟨fun h => mark_received_notfound h,
    fun d h hst => mark_received_invalid h hst,
    fun d h hst => ⟨mark_received_twice h hst, mark_received_hubTotal h hst⟩⟩

/-- Witness for C4: double invocation at a concrete state. -/
theorem c4_witness :
    mark_dispatch_received_service "D4" 9 sampleGen
        (mark_dispatch_received_service "D4" 5 sampleGen c4DB).1 =
      ((mark_dispatch_received_service "D4" 5 sampleGen c4DB).1,
       .error (.invalidState "Completed")) ∧
    hubTotal (mark_dispatch_received_service "D4" 5 sampleGen c4DB).1
        c4Dispatch.product_id c4Dispatch.to_hub_id =
      hubTotal c4DB c4Dispatch.product_id c4Dispatch.to_hub_id +
        traceSum c4Dispatch.batch_consumption :=
  (c4_mark_received_guard "D4" 5 9 sampleGen sampleGen c4DB).2.2 c4Dispatch
    (by decide) rfl

/-- C5: any finite nonempty sequence of RegisterIncoming calls on one
(product, hub, expiry) with no explicit batch number, starting from a state
with no matching batch, yields a single appended batch whose quantity is the
sum of the registered quantities and whose purchase unit price is the
quantity-weighted average of the incoming unit costs (incoming unit cost =
value / quantity); any permutation of the sequence yields the same quantity
and the same unit price. -/
theorem c5_register_weighted_average (hub pid pname cat : String) (expiry : Nat)
    (calls calls2 : List RegCall) (s : DB)
    (hhub : s.hubs.contains (normalizeId hub) = true)
    (hclean : ∀ b ∈ s.batches,
      stockInFindP (normalizeId pid) (normalizeId hub) none (some expiry) b = false)
    (hq : ∀ c ∈ calls, 0 < c.q) (hne : calls ≠ []) (hperm : calls.Perm calls2) :
    ∃ B1 B2 : Batch,
      (foldRegister hub pid pname cat expiry calls s).batches = s.batches ++ [B1] ∧
      (foldRegister hub pid pname cat expiry calls2 s).batches = s.batches ++ [B2] ∧
      B1.quantity = (calls.map (·.q)).sum ∧
      B1.purchase_unit_price =
        some ((calls.map (fun c => ((c.q : ℚ)) * (c.v / (c.q : ℚ)))).sum /
          (((calls.map (·.q)).sum : Int) : ℚ)) ∧
      B1.status = "active" ∧
      B2.quantity = B1.quantity ∧
      B2.purchase_unit_price = B1.purchase_unit_price := by
  obtain ⟨B1, hb1, hq1, hu1, hs1⟩ :=
    foldRegister_spec hub pid pname cat expiry calls s hhub hclean hq hne
  have hqc2 : ∀ c ∈ calls2, 0 < c.q := fun c hc => hq c (hperm.mem_iff.mpr hc)
  have hne2 : calls2 ≠ [] := by
    intro h
    exact hne (List.Perm.eq_nil (h ▸ hperm))
  obtain ⟨B2, hb2, hq2, hu2, hs2⟩ :=
    foldRegister_spec hub pid pname cat expiry calls2 s hhub hclean hqc2 hne2
  have hw : calls.map (fun c => ((c.q : ℚ)) * (c.v / (c.q : ℚ))) = calls.map (·.v) := by
    apply List.map_congr_left
    intro c hc
    have h0 : ((c.q : ℚ)) ≠ 0 := by
      have hcq := hq c hc
      have : (0 : ℚ) < ((c.q : ℚ)) := by exact_mod_cast hcq
      exact ne_of_gt this
    field_simp
  have hsq := (hperm.map (fun c : RegCall => c.q)).sum_eq
  have hsv := (hperm.map (fun c : RegCall => c.v)).sum_eq
  refine ⟨B1, B2, hb1, hb2, hq1, ?_, hs1, ?_, ?_⟩
  · rw [hu1, hw]
  · rw [hq2, hq1]
    exact hsq.symm
  · rw [hu2, hu1, ← hsv, ← hsq]

def c5CallA : RegCall := { q := 10, v := 500, now := 1, genBatchNo := "G1", txnId := "T1" }

def c5CallB : RegCall := { q := 30, v := 900, now := 2, genBatchNo := "G2", txnId := "T2" }

def c5DB : DB :=
  { hubs := ["HUB_A"], products := [], batches := [], txns := [], dispatches := [],
    drivers := [], vehicles := [] }

/-- Witness for C5: two registrations and their transposition. -/
theorem c5_witness :
    ∃ B1 B2 : Batch,
      (foldRegister "HUB_A" "P1" "Rice" "Grains" 60 [c5CallA, c5CallB] c5DB).batches =
        c5DB.batches ++ [B1] ∧
      (foldRegister "HUB_A" "P1" "Rice" "Grains" 60 [c5CallB, c5CallA] c5DB).batches =
        c5DB.batches ++ [B2] ∧
      B1.quantity = ([c5CallA, c5CallB].map (·.q)).sum ∧
      B1.purchase_unit_price =
        some (([c5CallA, c5CallB].map (fun c => ((c.q : ℚ)) * (c.v / (c.q : ℚ)))).sum /
          ((([c5CallA, c5CallB].map (·.q)).sum : Int) : ℚ)) ∧
      B1.status = "active" ∧
      B2.quantity = B1.quantity ∧
      B2.purchase_unit_price = B1.purchase_unit_price :=
  c5_register_weighted_average "HUB_A" "P1" "Rice" "Grains" 60
    [c5CallA, c5CallB] [c5CallB, c5CallA] c5DB
    (by decide) (by decide) (by decide) (by simp) (List.Perm.swap c5CallB c5CallA [])

def c3s1 : DB := (dispatch_inventory sampleDispatchReq 7 "D1" sampleGen sampleDB).1

def c3s2 : DB := (dispatch_vehicle_service c3s1).1

def c3s3 : DB := (mark_dispatch_received_service "D1" 9 sampleGen c3s2).1

/-- C3 counterexample: after a successful Dispatch of 30 units out of source
batch `B1` (unit cost 40, expiry day 60) followed by a successful
MarkReceived, the destination batch at `HUB_B` exists under the same batch
number but carries NO purchase unit price and NO expiry date: the receiving
upsert-insert materialises only its filter fields plus the `$inc`/`$set`
update, so the per-batch cost basis does not survive the transfer. -/
theorem c3_counterexample :
    ((mark_dispatch_received_service "D1" 9 sampleGen c3s2).2.toOption =
      some { dispatch_id := "D1", status := "Completed", hub := "HUB_B",
             arrival_time := 9 }) ∧
    ((sampleDB.batches.find? (destP "P1" "HUB_A" "B1")).map (·.purchase_unit_price) =
      some (some 40)) ∧
    ((c3s3.batches.find? (destP "P1" "HUB_B" "B1")).map (·.purchase_unit_price) =
      some none) ∧
    ((c3s3.batches.find? (destP "P1" "HUB_B" "B1")).map (·.expiry_date) = some none) := by
  decide

/-- C3 (amended): a successful Dispatch followed by resource assignment and a
successful MarkReceived restores the system-wide total stock of the product
(source debit and destination credit net to zero), the consumption-trace
total equals the dispatched quantity, and every consumed batch number
reappears as a destination batch at the receiving hub — but the destination
batch does not inherit the source batch's unit cost or expiry. -/
theorem c3_amended_round_trip_totals (p : DispatchPayload) (now1 now2 : Nat) (did : String)
    (genTxn1 genTxn2 : Nat → String) (s : DB)
    (hfrom : s.hubs.contains (normalizeId p.From_Hub_ID) = true)
    (hto : s.hubs.contains (normalizeId p.To_Hub_ID) = true)
    (hnd : (s.batches.map (·.oid)).Nodup)
    (hnn : ∀ x ∈ s.batches, 0 ≤ x.quantity)
    (hq0 : 0 ≤ p.Quantity)
    (hqle : p.Quantity ≤
      totalAvailable s (normalizeId p.Product_ID) (normalizeId p.From_Hub_ID))
    (hnoip : ∀ d ∈ s.dispatches, (d.status == "In-Progress") = false)
    (hdid : ∀ d ∈ s.dispatches, dispP did d = false)
    {drv : Driver} (hdrv : s.drivers.find? (fun d => d.status == "active") = some drv)
    {veh : Vehicle} (hveh : s.vehicles.find? (fun v => v.status == "Available") = some veh) :
    ∃ s1 out s3 r3,
      dispatch_inventory p now1 did genTxn1 s = (s1, .ok out) ∧
      mark_dispatch_received_service did now2 genTxn2 (dispatch_vehicle_service s1).1 =
        (s3, .ok r3) ∧
      sysTotal s3 (normalizeId p.Product_ID) = sysTotal s (normalizeId p.Product_ID) ∧
      (∀ e ∈ out.batch_consumption,
        (s3.batches.find? (destP (normalizeId p.Product_ID) (normalizeId p.To_Hub_ID)
          e.batch_no)).isSome = true) ∧
      traceSum out.batch_consumption = p.Quantity :=
  round_trip_spec p now1 now2 did genTxn1 genTxn2 s hfrom hto hnd hnn hq0 hqle
    hnoip hdid hdrv hveh

/-- Witness for the amended C3 at a concrete round trip. -/
theorem c3_amended_witness :
    ∃ s1 out s3 r3,
      dispatch_inventory sampleDispatchReq 7 "D1" sampleGen sampleDB = (s1, .ok out) ∧
      mark_dispatch_received_service "D1" 9 sampleGen (dispatch_vehicle_service s1).1 =
        (s3, .ok r3) ∧
      sysTotal s3 (normalizeId "P1") = sysTotal sampleDB (normalizeId "P1") ∧
      (∀ e ∈ out.batch_consumption,
        (s3.batches.find? (destP (normalizeId "P1") (normalizeId "HUB_B")
          e.batch_no)).isSome = true) ∧
      traceSum out.batch_consumption = 30 :=
  c3_amended_round_trip_totals sampleDispatchReq 7 9 "D1" sampleGen sampleGen sampleDB
    (by decide) (by decide) (by decide) (by decide) (by decide) (by decide)
    (by decide) (by decide)
    (show sampleDB.drivers.find? (fun d => d.status == "active") =
      some { driver_id := "DR1", name := "Dana", status := "active" } by decide)
    (show sampleDB.vehicles.find? (fun v => v.status == "Available") =
      some { vehicle_id := "V1", status := "Available" } by decide)

end SmartInventory
